import Mathlib

/-!
Verification of the autosvc diagnostic core against its specification.

Each section embeds one part of the Python source as executable Lean
definitions (byte strings become `List Nat`, exceptions become `Except`,
the ECU memory becomes an explicit state function) and proves the spec
claims about them.
-/

set_option maxHeartbeats 1000000

namespace Autosvc

/-! ## ISO-TP transport (src/autosvc/core/isotp/transport.py) -/

/-- Errors raised by the ISO-TP layer (`IsoTpProtocolError` / `IsoTpTimeoutError`). -/
inductive IsoTpErr where
  | protocolError (msg : String)
  | timeoutError
  deriving DecidableEq, Repr

/-- `IsoTpTransport._send_can`: frames shorter than 8 bytes are padded with
zeros to exactly 8 bytes before being put on the bus. -/
def sendCanPad (payload : List Nat) : List Nat :=
  payload ++ List.replicate (8 - payload.length) 0

/-- `IsoTpTransport._send_consecutive_frames`: the sequence of consecutive
frames (as padded on-bus frame data) produced for the remaining payload,
starting from sequence number `seq`.  PCI is `0x20 | (seq & 0x0F)`, each
frame carries up to 7 payload bytes, and `seq` advances as
`(seq + 1) & 0x0F`.  (Block-size pauses for flow control only gate timing,
not the frame contents, and are therefore not part of the frame list.) -/
def sendCF (rest : List Nat) (seq : Nat) : List (List Nat) :=
  if rest = [] then []
  else
    sendCanPad ((0x20 ||| (seq &&& 0xF)) :: rest.take 7)
      :: sendCF (rest.drop 7) ((seq + 1) &&& 0xF)
termination_by rest.length
decreasing_by
  simp only [List.length_drop]
  have : rest.length ≠ 0 := by simpa [List.length_eq_zero] using ‹¬rest = []›
  omega

/-- `IsoTpTransport._send_payload`: the exact sequence of (padded) CAN frame
data put on the bus for a payload, or a protocol error when the payload
exceeds `0x0FFF` bytes.  Length `≤ 7` yields a single frame `[len] ++ payload`;
otherwise a first frame `[0x10 | (len >> 8) & 0xF, len & 0xFF] ++ payload[:6]`
followed by consecutive frames starting at sequence number 1. -/
def sendPayloadFrames (payload : List Nat) : Except IsoTpErr (List (List Nat)) :=
  if payload.length ≤ 7 then
    .ok [sendCanPad ((payload.length &&& 0xF) :: payload)]
  else if 0x0FFF < payload.length then
    .error (.protocolError "payload too large")
  else
    .ok (sendCanPad ((0x10 ||| ((payload.length >>> 8) &&& 0xF))
            :: (payload.length &&& 0xFF) :: payload.take 6)
          :: sendCF (payload.drop 6) 1)

/-- `IsoTpTransport._recv_consecutive_frames`: consume consecutive frames
from the incoming frame list until `totalLen` payload bytes have been
buffered; checks frame type `0x2` and the expected sequence number, which
advances as `(seq + 1) & 0x0F`.  An exhausted frame list models the
receive deadline elapsing. -/
def recvConsecutiveFrames : List (List Nat) → List Nat → Nat → Nat →
    Except IsoTpErr (List Nat)
  | [], buffer, totalLen, _ =>
    if totalLen ≤ buffer.length then .ok (buffer.take totalLen)
    else .error .timeoutError
  | data :: rest, buffer, totalLen, expectedSeq =>
    if totalLen ≤ buffer.length then .ok (buffer.take totalLen)
    else if data = [] then .error (.protocolError "empty consecutive frame")
    else if data.headI >>> 4 ≠ 0x2 then
      .error (.protocolError "unexpected frame while receiving")
    else if data.headI &&& 0xF ≠ expectedSeq then
      .error (.protocolError "sequence number mismatch")
    else
      recvConsecutiveFrames rest (buffer ++ data.drop 1) totalLen
        ((expectedSeq + 1) &&& 0xF)

/-- `IsoTpTransport._recv_payload`: decode an incoming frame sequence into a
payload.  A single frame returns its embedded bytes; a first frame collects
consecutive frames via `recvConsecutiveFrames` (the flow-control frame the
receiver emits travels in the other direction and is not part of the input);
consecutive/flow-control/unknown first frames are protocol errors. -/
def recvPayload (frames : List (List Nat)) : Except IsoTpErr (List Nat) :=
  match frames with
  | [] => .error .timeoutError
  | data :: rest =>
    if data = [] then .error (.protocolError "empty frame")
    else
      let frameType := data.headI >>> 4
      if frameType = 0x0 then
        let len := data.headI &&& 0xF
        if data.length - 1 < len then
          .error (.protocolError "single frame length mismatch")
        else
          .ok ((data.drop 1).take len)
      else if frameType = 0x1 then
        if data.length < 2 then .error (.protocolError "short first frame")
        else
          let totalLen := ((data.headI &&& 0xF) <<< 8) ||| data.tail.headI
          if totalLen ≤ 7 then .error (.protocolError "invalid first frame length")
          else recvConsecutiveFrames rest (data.drop 2) totalLen 1
      else if frameType = 0x2 then .error (.protocolError "unexpected consecutive frame")
      else if frameType = 0x3 then .error (.protocolError "unexpected flow control")
      else .error (.protocolError "unknown frame type")

/-! ### Arithmetic helpers for the PCI byte layouts -/

theorem and15_of_lt {s : Nat} (h : s < 16) : s &&& 0xF = s := by
  have h4 := Nat.and_pow_two_sub_one_eq_mod s 4
  norm_num at h4
  omega

theorem lor32_of_lt {s : Nat} (h : s < 16) : 0x20 ||| s = 32 + s := by
  calc 0x20 ||| s = 2 ^ 4 * 2 ||| s := by norm_num
    _ = 2 ^ 4 * 2 + s := (Nat.mul_add_lt_is_or h 2).symm
    _ = 32 + s := by norm_num

theorem lor16_of_lt {s : Nat} (h : s < 16) : 0x10 ||| s = 16 + s := by
  calc 0x10 ||| s = 2 ^ 4 * 1 ||| s := by norm_num
    _ = 2 ^ 4 * 1 + s := (Nat.mul_add_lt_is_or h 1).symm
    _ = 16 + s := by norm_num

theorem shift4_32 {s : Nat} (h : s < 16) : (32 + s) >>> 4 = 2 := by
  rw [Nat.shiftRight_eq_div_pow]
  have h16 : (2 : Nat) ^ 4 = 16 := by norm_num
  rw [h16]
  omega

theorem shift4_16 {s : Nat} (h : s < 16) : (16 + s) >>> 4 = 1 := by
  rw [Nat.shiftRight_eq_div_pow]
  have h16 : (2 : Nat) ^ 4 = 16 := by norm_num
  rw [h16]
  omega

theorem and15_32 {s : Nat} (h : s < 16) : (32 + s) &&& 0xF = s := by
  have h4 := Nat.and_pow_two_sub_one_eq_mod (32 + s) 4
  norm_num at h4
  omega

theorem and15_16 {s : Nat} (h : s < 16) : (16 + s) &&& 0xF = s := by
  have h4 := Nat.and_pow_two_sub_one_eq_mod (16 + s) 4
  norm_num at h4
  omega

theorem seq_step_lt {s : Nat} : (s + 1) &&& 0xF < 16 := by
  have h4 := Nat.and_pow_two_sub_one_eq_mod (s + 1) 4
  norm_num at h4
  omega

/-! ### Padding facts -/

theorem sendCanPad_cons (a : Nat) (l : List Nat) :
    sendCanPad (a :: l) = a :: (l ++ List.replicate (7 - l.length) 0) := by
  simp only [sendCanPad, List.cons_append, List.length_cons]
  have h78 : 8 - (l.length + 1) = 7 - l.length := by omega
  rw [h78]

theorem sendCanPad_length {l : List Nat} (h : l.length ≤ 8) :
    (sendCanPad l).length = 8 := by
  simp only [sendCanPad, List.length_append, List.length_replicate]
  omega

/-! ### Reassembly of the sent consecutive frames -/

theorem recvCF_sendCF_aux (n : Nat) :
    ∀ (rest buffer : List Nat) (seq : Nat), rest.length ≤ n → seq < 16 →
      recvConsecutiveFrames (sendCF rest seq) buffer (buffer.length + rest.length) seq =
        .ok (buffer ++ rest) := by
  induction n with
  | zero =>
    intro rest buffer seq hlen _
    have hr : rest = [] := List.length_eq_zero.mp (Nat.le_zero.mp hlen)
    subst hr
    simp [sendCF, recvConsecutiveFrames]
  | succ n ih =>
    intro rest buffer seq hlen hseq
    by_cases hr : rest = []
    · subst hr
      simp [sendCF, recvConsecutiveFrames]
    · have hpos : 0 < rest.length := List.length_pos.mpr hr
      rw [sendCF, if_neg hr, recvConsecutiveFrames,
        if_neg (by omega : ¬ buffer.length + rest.length ≤ buffer.length)]
      have hand : seq &&& 0xF = seq := and15_of_lt hseq
      have hpci : (0x20 ||| (seq &&& 0xF)) = 32 + seq := by rw [hand]; exact lor32_of_lt hseq
      have htake8 : (rest.take 7).length ≤ 7 := by
        simp [List.length_take]
      have hne : sendCanPad ((0x20 ||| (seq &&& 0xF)) :: rest.take 7) ≠ [] := by
        intro hcontra
        have := sendCanPad_length (l := (0x20 ||| (seq &&& 0xF)) :: rest.take 7)
          (by simp only [List.length_cons]; omega)
        rw [hcontra] at this
        simp at this
      rw [if_neg hne]
      rw [sendCanPad_cons, hpci]
      simp only [List.headI_cons]
      rw [if_neg (by rw [shift4_32 hseq]; simp), if_neg (by rw [and15_32 hseq]; simp)]
      simp only [List.drop_one, List.tail_cons]
      by_cases hlen7 : rest.length ≤ 7
      · have htake : rest.take 7 = rest := List.take_of_length_le (by omega)
        have hdrop : rest.drop 7 = [] := List.drop_eq_nil_of_le (by omega)
        rw [htake, hdrop, sendCF, if_pos rfl, recvConsecutiveFrames]
        rw [if_pos (by
          simp only [List.length_append, List.length_replicate]
          omega)]
        have hbr : buffer ++ (rest ++ List.replicate (7 - rest.length) 0) =
            (buffer ++ rest) ++ List.replicate (7 - rest.length) 0 := by
          simp [List.append_assoc]
        rw [hbr]
        congr 1
        have := List.take_left (buffer ++ rest) (List.replicate (7 - rest.length) 0)
        simpa [List.length_append] using this
      · have htakelen : (rest.take 7).length = 7 := by
          simp [List.length_take]
          omega
        have hrep : (7 : Nat) - (rest.take 7).length = 0 := by omega
        rw [hrep]
        simp only [List.replicate_zero, List.append_nil]
        have hdl : (rest.drop 7).length = rest.length - 7 := by simp
        have hstep := ih (rest.drop 7) (buffer ++ rest.take 7) ((seq + 1) &&& 0xF)
          (by omega) seq_step_lt
        have harith : (buffer ++ rest.take 7).length + (rest.drop 7).length =
            buffer.length + rest.length := by
          simp only [List.length_append, htakelen, hdl]
          omega
        rw [harith] at hstep
        rw [hstep]
        congr 1
        rw [List.append_assoc, List.take_append_drop]

/-- The header byte of the k-th consecutive frame carries `0x20 | ((seq + k) % 16)`. -/
theorem sendCF_headI_aux (n : Nat) :
    ∀ (rest : List Nat) (seq k : Nat) (f : List Nat), rest.length ≤ n → seq < 16 →
      (sendCF rest seq).get? k = some f → f.headI = 0x20 ||| ((seq + k) % 16) := by
  induction n with
  | zero =>
    intro rest seq k f hlen _ hget
    have hr : rest = [] := List.length_eq_zero.mp (Nat.le_zero.mp hlen)
    subst hr
    rw [sendCF] at hget
    simp at hget
  | succ n ih =>
    intro rest seq k f hlen hseq hget
    by_cases hr : rest = []
    · subst hr
      rw [sendCF] at hget
      simp at hget
    · rw [sendCF, if_neg hr] at hget
      match k with
      | 0 =>
        simp only [List.get?_cons_zero, Option.some.injEq] at hget
        subst hget
        rw [sendCanPad_cons]
        simp only [List.headI_cons]
        rw [and15_of_lt hseq]
        congr 1
        omega
      | k + 1 =>
        simp only [List.get?_cons_succ] at hget
        have hpos : 0 < rest.length := List.length_pos.mpr hr
        have hstep := ih (rest.drop 7) ((seq + 1) &&& 0xF) k f
          (by simp only [List.length_drop]; omega) seq_step_lt hget
        rw [hstep]
        congr 1
        have hmod : (seq + 1) &&& 0xF = (seq + 1) % 16 := by
          have h4 := Nat.and_pow_two_sub_one_eq_mod (seq + 1) 4
          norm_num at h4
          omega
        rw [hmod]
        omega

/-- Every frame emitted as a consecutive frame is exactly 8 bytes. -/
theorem sendCF_mem_length (n : Nat) :
    ∀ (rest : List Nat) (seq : Nat) (f : List Nat), rest.length ≤ n →
      f ∈ sendCF rest seq → f.length = 8 := by
  induction n with
  | zero =>
    intro rest seq f hlen hmem
    have hr : rest = [] := List.length_eq_zero.mp (Nat.le_zero.mp hlen)
    subst hr
    rw [sendCF] at hmem
    simp at hmem
  | succ n ih =>
    intro rest seq f hlen hmem
    by_cases hr : rest = []
    · subst hr
      rw [sendCF] at hmem
      simp at hmem
    · rw [sendCF, if_neg hr] at hmem
      have hpos : 0 < rest.length := List.length_pos.mpr hr
      rcases List.mem_cons.mp hmem with hf | hf
      · subst hf
        apply sendCanPad_length
        simp only [List.length_cons, List.length_take]
        omega
      · exact ih (rest.drop 7) _ f (by simp only [List.length_drop]; omega) hf

/-- C1: ISO-TP round trip.  For every payload `P` with `|P| ≤ 0x0FFF`, feeding
the exact CAN frame sequence produced by `IsoTpTransport._send_payload(P)` into
the receive path (`_recv_payload` plus `_recv_consecutive_frames`) reproduces
`P` exactly; every frame sent on the bus is padded to exactly 8 bytes; and
consecutive-frame sequence numbers start at 1 and cycle modulo 16
(1..15, 0, 1, ...). -/
theorem isotp_round_trip (p : List Nat) (hlen : p.length ≤ 0x0FFF) :
    ∃ fs, sendPayloadFrames p = Except.ok fs ∧ recvPayload fs = Except.ok p ∧
      (∀ f ∈ fs, f.length = 8) ∧
      (∀ k f, (fs.drop 1).get? k = some f → f.headI = 0x20 ||| ((1 + k) % 16)) := by
  by_cases hp : p.length ≤ 7
  · -- single-frame case
    refine ⟨[sendCanPad ((p.length &&& 0xF) :: p)], ?_, ?_, ?_, ?_⟩
    · simp [sendPayloadFrames, hp]
    · have hL : p.length &&& 0xF = p.length := and15_of_lt (by omega)
      have hs4 : p.length >>> 4 = 0 := by
        rw [Nat.shiftRight_eq_div_pow]
        have h16 : (2 : Nat) ^ 4 = 16 := by norm_num
        rw [h16]
        omega
      rw [sendCanPad_cons, hL]
      simp only [recvPayload, List.headI_cons, hs4, hL]
      rw [if_neg (List.cons_ne_nil _ _), if_pos trivial]
      have hlen8 : (p.length :: (p ++ List.replicate (7 - p.length) 0)).length - 1 = 7 := by
        simp only [List.length_cons, List.length_append, List.length_replicate]
        omega
      rw [hlen8, if_neg (by omega)]
      simp only [List.drop_one, List.tail_cons]
      have htl := List.take_left p (List.replicate (7 - p.length) 0)
      rw [htl]
    · intro f hf
      simp only [List.mem_singleton] at hf
      subst hf
      exact sendCanPad_length (by simp only [List.length_cons]; omega)
    · intro k f hget
      simp at hget
  · -- multi-frame case
    push_neg at hp
    rw [sendPayloadFrames, if_neg (by omega), if_neg (by omega)]
    have hdiv : p.length >>> 8 = p.length / 256 := by
      rw [Nat.shiftRight_eq_div_pow]
    have hdivlt : p.length / 256 < 16 := by omega
    have hb0 : (0x10 ||| ((p.length >>> 8) &&& 0xF)) = 16 + p.length / 256 := by
      rw [hdiv, and15_of_lt hdivlt]
      exact lor16_of_lt hdivlt
    have hb1 : p.length &&& 0xFF = p.length % 256 := by
      have h8 := Nat.and_pow_two_sub_one_eq_mod p.length 8
      norm_num at h8
      omega
    have htk6 : (p.take 6).length = 6 := by
      simp only [List.length_take]
      omega
    have hffl : ((0x10 ||| ((p.length >>> 8) &&& 0xF))
        :: (p.length &&& 0xFF) :: p.take 6).length = 8 := by
      simp only [List.length_cons, htk6]
    have hffpad : sendCanPad ((0x10 ||| ((p.length >>> 8) &&& 0xF))
        :: (p.length &&& 0xFF) :: p.take 6) =
        (0x10 ||| ((p.length >>> 8) &&& 0xF)) :: (p.length &&& 0xFF) :: p.take 6 := by
      simp [sendCanPad, hffl]
    refine ⟨_, rfl, ?_, ?_, ?_⟩
    · rw [hffpad, hb0, hb1]
      simp only [recvPayload, List.headI_cons, shift4_16 hdivlt]
      rw [if_neg (List.cons_ne_nil _ _), if_neg (by omega : ¬(1 = 0)), if_pos trivial]
      rw [if_neg (by simp only [List.length_cons, htk6]; omega)]
      simp only [List.tail_cons, List.headI_cons, and15_16 hdivlt]
      have hor : (p.length / 256) <<< 8 ||| p.length % 256 = p.length := by
        have hshl : (p.length / 256) <<< 8 = 2 ^ 8 * (p.length / 256) := by
          rw [Nat.shiftLeft_eq]
          ring
        rw [hshl, ← Nat.mul_add_lt_is_or (by omega) (p.length / 256)]
        omega
      rw [hor, if_neg (by omega : ¬(p.length ≤ 7))]
      have hdrop2 : List.drop 2 ((16 + p.length / 256) :: p.length % 256 :: List.take 6 p) =
          List.take 6 p := rfl
      rw [hdrop2]
      have hmain := recvCF_sendCF_aux (p.drop 6).length (p.drop 6) (p.take 6) 1
        (le_refl _) (by omega)
      have harith : (p.take 6).length + (p.drop 6).length = p.length := by
        simp only [htk6, List.length_drop]
        omega
      rw [harith] at hmain
      rw [hmain, List.take_append_drop]
    · intro f hf
      rcases List.mem_cons.mp hf with hf | hf
      · subst hf
        exact sendCanPad_length (by rw [hffl])
      · exact sendCF_mem_length (p.drop 6).length (p.drop 6) 1 f (le_refl _) hf
    · intro k f hget
      simp only [List.drop_one, List.tail_cons] at hget
      exact sendCF_headI_aux (p.drop 6).length (p.drop 6) 1 k f (le_refl _)
        (by omega) hget

/-- C1 witness: the round trip evaluated at the concrete 20-byte payload
`[0, 1, ..., 19]`. -/
theorem isotp_round_trip_witness :
    (List.range 20).length ≤ 0x0FFF ∧
      ∃ fs, sendPayloadFrames (List.range 20) = Except.ok fs ∧
        recvPayload fs = Except.ok (List.range 20) ∧
        (∀ f ∈ fs, f.length = 8) ∧
        (∀ k f, (fs.drop 1).get? k = some f → f.headI = 0x20 ||| ((1 + k) % 16)) :=
  ⟨by simp, isotp_round_trip (List.range 20) (by simp)⟩

/-! ## CAN id derivation (src/autosvc/core/vehicle/topology.py `ids_for_ecu`
and src/autosvc/core/uds/client.py `UdsClient._ecu_ids`) -/

/-- `_TESTER_SOURCE_ADDRESS_29` in topology.py (and the local `tester_sa`
constant in `UdsClient._ecu_ids`). -/
def testerSourceAddress29 : Nat := 0xF1

/-- `ids_for_ecu(ecu, can_id_mode)` with the ECU address already parsed from
hex (`int(ecu, 16)`, non-negative here since the model uses `Nat`).
Returns `(tx_id, rx_id)` or a `ValueError` message. -/
def ids_for_ecu (ecuInt : Nat) (canIdMode : String) : Except String (Nat × Nat) :=
  if 0xFF < ecuInt then .error "ecu out of range"
  else if canIdMode = "11bit" then
    if 0x17 < ecuInt then .error "ecu out of range"
    else .ok (0x7E0 + ecuInt, 0x7E8 + ecuInt)
  else if canIdMode = "29bit" then
    .ok (0x18DA0000 ||| ((ecuInt &&& 0xFF) <<< 8) ||| (testerSourceAddress29 &&& 0xFF),
         0x18DA0000 ||| ((testerSourceAddress29 &&& 0xFF) <<< 8) ||| (ecuInt &&& 0xFF))
  else .error "invalid can_id_mode"

/-- `UdsClient._ecu_ids(ecu)`: same derivation as `ids_for_ecu`, with the
tester source address written inline as `0xF1`. -/
def UdsClient_ecu_ids (ecuInt : Nat) (canIdMode : String) : Except String (Nat × Nat) :=
  if 0xFF < ecuInt then .error "ecu out of range"
  else if canIdMode = "11bit" then
    if 0x17 < ecuInt then .error "ecu out of range"
    else .ok (0x7E0 + ecuInt, 0x7E8 + ecuInt)
  else if canIdMode = "29bit" then
    .ok (0x18DA0000 ||| ((ecuInt &&& 0xFF) <<< 8) ||| (0xF1 &&& 0xFF),
         0x18DA0000 ||| ((0xF1 &&& 0xFF) <<< 8) ||| (ecuInt &&& 0xFF))
  else .error "invalid can_id_mode"

/-! ## DID read guard (src/autosvc/core/uds/did.py `read_did`) -/

/-- Errors raised by `read_did` on a malformed positive/negative response. -/
inductive DidErr where
  | emptyResponse
  | negativeResponse (nrc : Option Nat)
  | unexpectedResponse
  | unexpectedDidInResponse
  deriving DecidableEq, Repr

/-- The response-validation part of `read_did(uds, did)`: given the requested
DID and the raw UDS response payload, either the data bytes after the
3-byte `0x62, did_hi, did_lo` header, or the error the function raises. -/
def read_did_check (did : Nat) (response : List Nat) : Except DidErr (List Nat) :=
  let didInt := did &&& 0xFFFF
  if response = [] then .error .emptyResponse
  else if response.headI = 0x7F then
    if 3 ≤ response.length then .error (.negativeResponse (some (response.tail.tail.headI)))
    else .error (.negativeResponse none)
  else if response.length < 3 ∨ response.headI ≠ 0x62 then .error .unexpectedResponse
  else if response.tail.headI ≠ ((didInt >>> 8) &&& 0xFF) ∨
      response.tail.tail.headI ≠ (didInt &&& 0xFF) then .error .unexpectedDidInResponse
  else .ok (response.drop 3)

/-! ### C9 helper arithmetic -/

theorem and255_of_lt {e : Nat} (h : e < 256) : e &&& 0xFF = e := by
  have h8 := Nat.and_pow_two_sub_one_eq_mod e 8
  norm_num at h8
  omega

theorem tx29_eq {e : Nat} (he : e < 256) :
    0x18DA0000 ||| (e <<< 8) ||| 0xF1 = 0x18DA0000 + 256 * e + 0xF1 := by
  have h1 : e <<< 8 = 256 * e := by
    rw [Nat.shiftLeft_eq]
    ring
  have h2 : (0x18DA0000 : Nat) ||| 256 * e = 0x18DA0000 + 256 * e := by
    have hb : 256 * e < 2 ^ 16 := by omega
    calc (0x18DA0000 : Nat) ||| 256 * e = 2 ^ 16 * 0x18DA ||| 256 * e := by norm_num
      _ = 2 ^ 16 * 0x18DA + 256 * e := (Nat.mul_add_lt_is_or hb 0x18DA).symm
      _ = 0x18DA0000 + 256 * e := by norm_num
  have h3 : (0x18DA0000 + 256 * e) ||| 0xF1 = 0x18DA0000 + 256 * e + 0xF1 := by
    have hb : (0xF1 : Nat) < 2 ^ 8 := by norm_num
    calc (0x18DA0000 + 256 * e) ||| 0xF1 = 2 ^ 8 * (0x18DA00 + e) ||| 0xF1 := by ring_nf
      _ = 2 ^ 8 * (0x18DA00 + e) + 0xF1 := (Nat.mul_add_lt_is_or hb (0x18DA00 + e)).symm
      _ = 0x18DA0000 + 256 * e + 0xF1 := by ring_nf
  rw [h1, h2, h3]

theorem rx29_eq {e : Nat} (he : e < 256) :
    0x18DA0000 ||| (0xF1 <<< 8) ||| e = 0x18DA0000 + 0xF100 + e := by
  have h1 : (0xF1 : Nat) <<< 8 = 0xF100 := by decide
  have h2 : (0x18DA0000 : Nat) ||| 0xF100 = 0x18DA0000 + 0xF100 := by decide
  have h3 : (0x18DA0000 + 0xF100 : Nat) ||| e = 0x18DA0000 + 0xF100 + e := by
    have hb : e < 2 ^ 8 := by omega
    calc (0x18DA0000 + 0xF100 : Nat) ||| e = 2 ^ 8 * 0x18DAF1 ||| e := by norm_num
      _ = 2 ^ 8 * 0x18DAF1 + e := (Nat.mul_add_lt_is_or hb 0x18DAF1).symm
      _ = 0x18DA0000 + 0xF100 + e := by norm_num
  rw [h1, h2, h3]

/-- C9 counterexample: for ECU address `0xF1` (which equals the tester source
address) in 29-bit mode, the derived ids collide: `tx = rx = 0x18DAF1F1`,
refuting "in all cases tx != rx". -/
theorem ids_for_ecu_tester_collision :
    ∃ tx rx, ids_for_ecu 0xF1 "29bit" = Except.ok (tx, rx) ∧ tx = rx := by
  refine ⟨0x18DAF1F1, 0x18DAF1F1, ?_, rfl⟩
  rfl

/-- C9 (amended): for `e ∈ 0..=0x17` in 11-bit mode `tx = 0x7E0+e`,
`rx = 0x7E8+e` and `tx ≠ rx`; for `e ∈ 0x18..=0xFF` in 11-bit mode the
derivation fails validation; for `e ∈ 0..=0xFF` in 29-bit normal-fixed mode
`tx = 0x18DA0000 | (e<<8) | 0xF1` and `rx = 0x18DA0000 | (0xF1<<8) | e`, and
`tx ≠ rx` for every `e` except `e = 0xF1` (the tester source address), where
the two ids coincide.  `UdsClient._ecu_ids` agrees with `ids_for_ecu`
everywhere. -/
theorem can_id_derivation :
    (∀ e, e ≤ 0x17 →
        ids_for_ecu e "11bit" = Except.ok (0x7E0 + e, 0x7E8 + e) ∧
          0x7E0 + e ≠ 0x7E8 + e) ∧
    (∀ e, 0x17 < e → e ≤ 0xFF → ids_for_ecu e "11bit" = Except.error "ecu out of range") ∧
    (∀ e, e ≤ 0xFF →
        ids_for_ecu e "29bit" =
          Except.ok (0x18DA0000 ||| (e <<< 8) ||| 0xF1, 0x18DA0000 ||| (0xF1 <<< 8) ||| e)) ∧
    (∀ e, e ≤ 0xFF → e ≠ 0xF1 →
        (0x18DA0000 ||| (e <<< 8) ||| 0xF1) ≠ (0x18DA0000 ||| (0xF1 <<< 8) ||| e)) ∧
    (∀ e mode, UdsClient_ecu_ids e mode = ids_for_ecu e mode) := by
  refine ⟨?_, ?_, ?_, ?_, ?_⟩
  · intro e he
    constructor
    · simp only [ids_for_ecu, if_neg (by omega : ¬(0xFF < e))]
      rw [if_pos trivial, if_neg (by omega : ¬(0x17 < e))]
    · omega
  · intro e he1 he2
    simp only [ids_for_ecu, if_neg (by omega : ¬(0xFF < e))]
    rw [if_pos trivial, if_pos (by omega : 0x17 < e)]
  · intro e he
    simp only [ids_for_ecu, if_neg (by omega : ¬(0xFF < e))]
    rw [if_neg (by decide : ¬("29bit" = "11bit")), if_pos trivial]
    rw [show testerSourceAddress29 &&& 0xFF = 0xF1 from by decide,
      and255_of_lt (by omega : e < 256)]
  · intro e he hne
    rw [tx29_eq (by omega), rx29_eq (by omega)]
    omega
  · intro e mode
    simp only [UdsClient_ecu_ids, ids_for_ecu]
    rw [show testerSourceAddress29 &&& 0xFF = 0xF1 from by decide]
    rw [show (0xF1 : Nat) &&& 0xFF = 0xF1 from by decide]

/-- C9 witness: the amended characterization applied at concrete ECU
addresses `0x03` (11-bit ok), `0x20` (11-bit rejected) and `0x07` (29-bit). -/
theorem can_id_derivation_witness :
    ids_for_ecu 0x03 "11bit" = Except.ok (0x7E3, 0x7EB) ∧
      ids_for_ecu 0x20 "11bit" = Except.error "ecu out of range" ∧
      ids_for_ecu 0x07 "29bit" = Except.ok (0x18DA07F1, 0x18DAF107) ∧
      (0x18DA07F1 : Nat) ≠ 0x18DAF107 := by
  have h := can_id_derivation
  refine ⟨?_, ?_, ?_, by decide⟩
  · have h1 := (h.1 0x03 (by omega)).1
    simpa using h1
  · exact h.2.1 0x20 (by omega) (by omega)
  · have h3 := h.2.2.1 0x07 (by omega)
    simpa using h3

/-- C10: the DID-echo guard in `read_did`.  The call returns exactly the bytes
after the positive 3-byte header `0x62, did_hi, did_lo` and errors on an
empty response, a negative (`0x7F`) response, a short response, a wrong
service byte, or a response echoing a different DID. -/
theorem read_did_echo_guard (did : Nat) (response : List Nat) :
    (∀ v, read_did_check did response = Except.ok v ↔
        response = 0x62 :: (((did &&& 0xFFFF) >>> 8) &&& 0xFF)
          :: ((did &&& 0xFFFF) &&& 0xFF) :: v) ∧
    (response = [] → read_did_check did response = Except.error .emptyResponse) ∧
    (response ≠ [] → response.headI = 0x7F →
      ∃ nrc, read_did_check did response = Except.error (.negativeResponse nrc)) ∧
    (response ≠ [] → response.headI ≠ 0x7F → response.length < 3 ∨ response.headI ≠ 0x62 →
      read_did_check did response = Except.error .unexpectedResponse) ∧
    (response ≠ [] → response.headI ≠ 0x7F → ¬(response.length < 3 ∨ response.headI ≠ 0x62) →
      response.tail.headI ≠ (((did &&& 0xFFFF) >>> 8) &&& 0xFF) ∨
        response.tail.tail.headI ≠ ((did &&& 0xFFFF) &&& 0xFF) →
      read_did_check did response = Except.error .unexpectedDidInResponse) := by
  refine ⟨?_, ?_, ?_, ?_, ?_⟩
  · intro v
    constructor
    · intro hok
      simp only [read_did_check] at hok
      by_cases h0 : response = []
      · rw [if_pos h0] at hok
        exact absurd hok (by simp)
      rw [if_neg h0] at hok
      by_cases h1 : response.headI = 0x7F
      · rw [if_pos h1] at hok
        by_cases h2 : 3 ≤ response.length
        · rw [if_pos h2] at hok
          exact absurd hok (by simp)
        · rw [if_neg h2] at hok
          exact absurd hok (by simp)
      rw [if_neg h1] at hok
      by_cases h2 : response.length < 3 ∨ response.headI ≠ 0x62
      · rw [if_pos h2] at hok
        exact absurd hok (by simp)
      rw [if_neg h2] at hok
      by_cases h3 : response.tail.headI ≠ (((did &&& 0xFFFF) >>> 8) &&& 0xFF) ∨
          response.tail.tail.headI ≠ ((did &&& 0xFFFF) &&& 0xFF)
      · rw [if_pos h3] at hok
        exact absurd hok (by simp)
      rw [if_neg h3] at hok
      push_neg at h2 h3
      match response, h0 with
      | a :: b :: c :: rest, _ =>
        simp only [List.headI_cons, List.tail_cons] at h2 h3
        simp only [List.drop_succ_cons, List.drop_zero, Except.ok.injEq] at hok
        simp only [List.cons.injEq]
        exact ⟨h2.2, h3.1, h3.2, hok⟩
      | [a], _ =>
        simp at h2
      | [a, b], _ =>
        simp at h2
    · intro hresp
      subst hresp
      simp only [read_did_check, List.headI_cons, List.tail_cons]
      rw [if_neg (List.cons_ne_nil _ _), if_neg (by norm_num)]
      rw [if_neg (by simp only [List.length_cons]; omega)]
      rw [if_neg (by simp)]
      simp
  · intro h0
    subst h0
    simp [read_did_check]
  · intro h0 h1
    simp only [read_did_check]
    rw [if_neg h0, if_pos h1]
    by_cases h2 : 3 ≤ response.length
    · rw [if_pos h2]
      exact ⟨_, rfl⟩
    · rw [if_neg h2]
      exact ⟨_, rfl⟩
  · intro h0 h1 h2
    simp only [read_did_check]
    rw [if_neg h0, if_neg h1, if_pos h2]
  · intro h0 h1 h2 h3
    simp only [read_did_check]
    rw [if_neg h0, if_neg h1, if_neg h2, if_pos h3]

/-- C10 witness: reading DID `0xF190` with the well-formed echo response
`62 F1 90 AB` yields `[0xAB]`, and with a wrong echo `62 F1 91 AB` errors. -/
theorem read_did_echo_guard_witness :
    read_did_check 0xF190 [0x62, 0xF1, 0x90, 0xAB] = Except.ok [0xAB] ∧
      read_did_check 0xF190 [0x62, 0xF1, 0x91, 0xAB] =
        Except.error DidErr.unexpectedDidInResponse := by
  constructor
  · exact ((read_did_echo_guard 0xF190 [0x62, 0xF1, 0x90, 0xAB]).1 [0xAB]).mpr (by decide)
  · exact (read_did_echo_guard 0xF190 [0x62, 0xF1, 0x91, 0xAB]).2.2.2.2
      (by decide) (by decide) (by decide) (by decide)

/-! ## DTC classification (src/autosvc/core/dtc/status.py, decode.py, format.py,
and src/backend/uds/dtc.py) -/

/-- `decode_status_byte`: the flag for a given bit of the (masked) status
byte, `bool(value & (1 << bit))`. -/
def statusFlag (status bit : Nat) : Bool :=
  decide ((status &&& 0xFF) &&& (1 <<< bit) ≠ 0)

/-- `decode.py _status_from_flags`: `active` when test-failed (bit 0) or
confirmed (bit 3) is set, else `pending` when pending (bit 2) is set, else
`stored`. -/
def statusFromFlags (status : Nat) : String :=
  if statusFlag status 0 || statusFlag status 3 then "active"
  else if statusFlag status 2 then "pending"
  else "stored"

/-- Upper-case hex digit for a nibble, as produced by Python `X` formatting. -/
def hexChar (n : Nat) : Char :=
  "0123456789ABCDEF".toList.getD n 'X'

/-- `format.py _DTC_PREFIX.get((code16 >> 14) & 0x3, "P")`. -/
def dtcPrefixChar (n : Nat) : Char :=
  match n with
  | 0 => 'P'
  | 1 => 'C'
  | 2 => 'B'
  | 3 => 'U'
  | _ => 'P'

/-- `format.py uds_dtc_to_sae(code24)`: the SAE-style code as its character
list `f"{prefix}{first}{rest:03X}"` (the Python string is modelled by its
characters). -/
def uds_dtc_to_sae (code24 : Nat) : List Char :=
  let code16 := code24 &&& 0xFFFF
  let first := (code16 >>> 12) &&& 0x3
  let rest := code16 &&& 0x0FFF
  [dtcPrefixChar ((code16 >>> 14) &&& 0x3), Char.ofNat (0x30 + first),
    hexChar ((rest >>> 8) &&& 0xF), hexChar ((rest >>> 4) &&& 0xF), hexChar (rest &&& 0xF)]

/-- `decode.py _severity` applied as in `decode_dtcs`: `system` is the first
character of the SAE code, the `P0` test is `code.startswith("P0")`. -/
def severityOf (code24 status : Nat) : String :=
  let code := uds_dtc_to_sae code24
  if statusFlag status 7 then "critical"
  else if code.headI = 'U' then "warning"
  else if code.take 2 = ['P', '0'] ∧ statusFlag status 3 then "warning"
  else "info"

/-- `backend/uds/dtc.py status_from_byte`: only the label part (the returned
`DtcStatus` also carries `status & 0xFF`). -/
def status_from_byte_label (status : Nat) : String :=
  if status &&& 0x01 ≠ 0 then "active"
  else if status &&& 0x04 ≠ 0 then "pending"
  else if status &&& 0x02 ≠ 0 then "stored"
  else "unknown"

theorem two_pow_and_ne_zero (s i : Nat) : (s &&& 2 ^ i ≠ 0) ↔ s.testBit i = true := by
  rw [Nat.and_two_pow]
  cases h : s.testBit i
  · simp
  · simp [(Nat.two_pow_pos i).ne']

theorem statusFlag_eq_testBit (s b : Nat) (hb : b < 8) : statusFlag s b = s.testBit b := by
  unfold statusFlag
  have h1 : (1 : Nat) <<< b = 2 ^ b := by
    rw [Nat.shiftLeft_eq]
    ring
  rw [h1]
  have h2 : (s &&& 255).testBit b = s.testBit b := by
    rw [Nat.testBit_and]
    have h255 : (255 : Nat) = 2 ^ 8 - 1 := by norm_num
    rw [h255, Nat.testBit_two_pow_sub_one]
    simp [hb]
  simp [two_pow_and_ne_zero, h2]

theorem statusFromFlags_char (s : Nat) :
    statusFromFlags s =
      if s.testBit 0 ∨ s.testBit 3 then "active"
      else if s.testBit 2 then "pending"
      else "stored" := by
  simp only [statusFromFlags, statusFlag_eq_testBit s 0 (by omega),
    statusFlag_eq_testBit s 3 (by omega), statusFlag_eq_testBit s 2 (by omega)]
  cases ht0 : s.testBit 0 <;> cases ht3 : s.testBit 3 <;> cases ht2 : s.testBit 2 <;>
    simp [ht0, ht3, ht2]

theorem status_from_byte_label_char (s : Nat) :
    status_from_byte_label s =
      if s.testBit 0 then "active"
      else if s.testBit 2 then "pending"
      else if s.testBit 1 then "stored"
      else "unknown" := by
  have e0 : (s &&& 0x01 ≠ 0) ↔ s.testBit 0 = true := two_pow_and_ne_zero s 0
  have e1 : (s &&& 0x02 ≠ 0) ↔ s.testBit 1 = true := two_pow_and_ne_zero s 1
  have e2 : (s &&& 0x04 ≠ 0) ↔ s.testBit 2 = true := two_pow_and_ne_zero s 2
  simp only [status_from_byte_label, e0, e1, e2]

theorem severityOf_char (c s : Nat) :
    severityOf c s =
      if s.testBit 7 then "critical"
      else if ((c &&& 0xFFFF) >>> 14) &&& 0x3 = 3 then "warning"
      else if ((c &&& 0xFFFF) >>> 14) &&& 0x3 = 0 ∧ ((c &&& 0xFFFF) >>> 12) &&& 0x3 = 0 ∧
          s.testBit 3 then "warning"
      else "info" := by
  have hf7 := statusFlag_eq_testBit s 7 (by omega)
  have hf3 := statusFlag_eq_testBit s 3 (by omega)
  have ha : ((c &&& 0xFFFF) >>> 14) &&& 0x3 ≤ 3 := Nat.and_le_right
  have hb : ((c &&& 0xFFFF) >>> 12) &&& 0x3 ≤ 3 := Nat.and_le_right
  have hacases : ((c &&& 0xFFFF) >>> 14) &&& 0x3 = 0 ∨ ((c &&& 0xFFFF) >>> 14) &&& 0x3 = 1 ∨
      ((c &&& 0xFFFF) >>> 14) &&& 0x3 = 2 ∨ ((c &&& 0xFFFF) >>> 14) &&& 0x3 = 3 := by omega
  have hbcases : ((c &&& 0xFFFF) >>> 12) &&& 0x3 = 0 ∨ ((c &&& 0xFFFF) >>> 12) &&& 0x3 = 1 ∨
      ((c &&& 0xFFFF) >>> 12) &&& 0x3 = 2 ∨ ((c &&& 0xFFFF) >>> 12) &&& 0x3 = 3 := by omega
  simp only [severityOf, uds_dtc_to_sae, hf7, hf3]
  rcases hacases with h1 | h1 | h1 | h1 <;> rcases hbcases with h2 | h2 | h2 | h2 <;>
    simp [h1, h2, dtcPrefixChar]

/-- C8 counterexample: status byte `0x08` has only the confirmed bit (bit 3)
set.  The claim says every status byte with the confirmed bit set is labelled
`active`, but `backend/uds/dtc.py status_from_byte` labels it `unknown`
(it tests only bit 0 for `active`); the core `_status_from_flags` does label
it `active`. -/
theorem dtc_status_backend_counterexample :
    status_from_byte_label 0x08 = "unknown" ∧ statusFromFlags 0x08 = "active" ∧
      ("unknown" : String) ≠ "active" :=
  ⟨rfl, rfl, by decide⟩

/-- C8 (amended): the core classifier `_status_from_flags` labels a status
byte `active` when bit 0 (test failed) or bit 3 (confirmed) is set, else
`pending` when bit 2 is set, else `stored`; severity is `critical` when bit 7
(warning indicator / MIL) is set, else `warning` for `U` codes (top two bits
of the 16-bit code are `0b11`) or `P0...` codes (both top pairs zero) with the
confirmed bit, else `info`.  The backend `status_from_byte`, however, labels
`active` only on bit 0, `pending` on bit 2, `stored` on bit 1, and `unknown`
otherwise (so a byte with only the confirmed bit is `unknown`, not
`active`). -/
theorem dtc_classification :
    (∀ s : Nat, statusFromFlags s =
      if s.testBit 0 ∨ s.testBit 3 then "active"
      else if s.testBit 2 then "pending"
      else "stored") ∧
    (∀ c s : Nat, severityOf c s =
      if s.testBit 7 then "critical"
      else if ((c &&& 0xFFFF) >>> 14) &&& 0x3 = 3 then "warning"
      else if ((c &&& 0xFFFF) >>> 14) &&& 0x3 = 0 ∧ ((c &&& 0xFFFF) >>> 12) &&& 0x3 = 0 ∧
          s.testBit 3 then "warning"
      else "info") ∧
    (∀ s : Nat, status_from_byte_label s =
      if s.testBit 0 then "active"
      else if s.testBit 2 then "pending"
      else if s.testBit 1 then "stored"
      else "unknown") :=
  ⟨statusFromFlags_char, severityOf_char, status_from_byte_label_char⟩

/-! ## UDS pending handling (src/autosvc/core/uds/client.py) -/

/-- `UdsClient.__init__` default `p2_ms`. -/
def p2_ms_default : Nat := 50

/-- `UdsClient.__init__` default `p2_star_ms`. -/
def p2_star_ms_default : Nat := 5000

/-- Errors surfaced by the UDS request path (`UdsError`). -/
inductive UdsErr where
  | timeout
  | emptyResponse
  deriving DecidableEq, Repr

/-- `UdsClient._is_response_pending`: `len(payload) >= 3 and payload[0] == 0x7F
and payload[1] == sid and payload[2] == 0x78`. -/
def is_response_pending (payload : List Nat) (sid : Nat) : Bool :=
  decide (3 ≤ payload.length) && decide (payload.headI = 0x7F) &&
    decide (payload.tail.headI = sid) && decide (payload.tail.tail.headI = 0x78)

/-- `UdsClient._wait_for_pending`: keep receiving on the same ISO-TP endpoint
until a non-pending response arrives; the response stream lists the payloads
received before the `P2*` deadline, so an exhausted stream models the
deadline elapsing (`raise UdsError("timeout waiting for response")`). -/
def wait_for_pending (sid : Nat) : List (List Nat) → Except UdsErr (List Nat)
  | [] => .error .timeout
  | r :: rest =>
    if r = [] then .error .emptyResponse
    else if is_response_pending r sid then wait_for_pending sid rest
    else .ok r

/-- `UdsClient._request_for_ecu` after the initial ISO-TP exchange: `first` is
the response received within `P2` (`none` models the initial timeout), and
`stream` the subsequent responses available within `P2*`. -/
def request_for_ecu (sid : Nat) (first : Option (List Nat))
    (stream : List (List Nat)) : Except UdsErr (List Nat) :=
  match first with
  | none => .error .timeout
  | some r =>
    if r = [] then .error .emptyResponse
    else if is_response_pending r sid then wait_for_pending sid stream
    else .ok r

theorem pending_ne_nil {x : List Nat} {sid : Nat}
    (h : is_response_pending x sid = true) : x ≠ [] := by
  intro hx
  subst hx
  simp [is_response_pending] at h

theorem wait_ok_not_pending (sid : Nat) :
    ∀ (stream : List (List Nat)) (v : List Nat),
      wait_for_pending sid stream = Except.ok v → is_response_pending v sid = false := by
  intro stream
  induction stream with
  | nil =>
    intro v h
    simp [wait_for_pending] at h
  | cons r rest ih =>
    intro v h
    rw [wait_for_pending] at h
    by_cases hr : r = []
    · rw [if_pos hr] at h
      exact absurd h (by simp)
    rw [if_neg hr] at h
    by_cases hp : is_response_pending r sid = true
    · rw [if_pos hp] at h
      exact ih v h
    · rw [if_neg hp] at h
      simp only [Except.ok.injEq] at h
      subst h
      exact Bool.eq_false_iff.mpr hp

theorem wait_all_pending_timeout (sid : Nat) :
    ∀ (stream : List (List Nat)),
      (∀ x ∈ stream, is_response_pending x sid = true) →
      wait_for_pending sid stream = Except.error UdsErr.timeout := by
  intro stream
  induction stream with
  | nil => intro _; rfl
  | cons r rest ih =>
    intro hall
    have hr := hall r (List.mem_cons_self r rest)
    rw [wait_for_pending, if_neg (pending_ne_nil hr), if_pos hr]
    exact ih fun x hx => hall x (List.mem_cons_of_mem r hx)

theorem wait_first_non_pending (sid : Nat) :
    ∀ (pre : List (List Nat)) (resp : List Nat) (rest : List (List Nat)),
      (∀ x ∈ pre, is_response_pending x sid = true) →
      resp ≠ [] → is_response_pending resp sid = false →
      wait_for_pending sid (pre ++ resp :: rest) = Except.ok resp := by
  intro pre
  induction pre with
  | nil =>
    intro resp rest _ hne hnp
    rw [List.nil_append, wait_for_pending, if_neg hne, if_neg (by simp [hnp])]
  | cons r pre ih =>
    intro resp rest hall hne hnp
    have hr := hall r (List.mem_cons_self r pre)
    rw [List.cons_append, wait_for_pending, if_neg (pending_ne_nil hr), if_pos hr]
    exact ih resp rest (fun x hx => hall x (List.mem_cons_of_mem r hx)) hne hnp

/-- C6: pending handling.  A `7F sid 78` (responsePending) payload is never
returned to the caller; the client keeps receiving on the same ISO-TP
endpoint and returns the first non-pending response, or raises a timeout
error when only pending responses arrive before the `P2*` deadline (modelled
by the stream being exhausted); `P2*` (default 5000 ms) is a separate, longer
deadline than the initial `P2` (default 50 ms). -/
theorem uds_pending_never_surfaced :
    (∀ (sid : Nat) (first : Option (List Nat)) (stream : List (List Nat)) (v : List Nat),
      request_for_ecu sid first stream = Except.ok v → is_response_pending v sid = false) ∧
    (∀ (sid : Nat) (r : List Nat) (stream : List (List Nat)),
      is_response_pending r sid = true →
      (∀ x ∈ stream, is_response_pending x sid = true) →
      request_for_ecu sid (some r) stream = Except.error UdsErr.timeout) ∧
    (∀ (sid : Nat) (r : List Nat) (pre : List (List Nat)) (resp : List Nat)
        (rest : List (List Nat)),
      is_response_pending r sid = true →
      (∀ x ∈ pre, is_response_pending x sid = true) →
      resp ≠ [] → is_response_pending resp sid = false →
      request_for_ecu sid (some r) (pre ++ resp :: rest) = Except.ok resp) ∧
    p2_ms_default = 50 ∧ p2_star_ms_default = 5000 := by
  refine ⟨?_, ?_, ?_, rfl, rfl⟩
  · intro sid first stream v h
    match first with
    | none => simp [request_for_ecu] at h
    | some r =>
      rw [request_for_ecu] at h
      by_cases hr : r = []
      · rw [if_pos hr] at h
        exact absurd h (by simp)
      rw [if_neg hr] at h
      by_cases hp : is_response_pending r sid = true
      · rw [if_pos hp] at h
        exact wait_ok_not_pending sid stream v h
      · rw [if_neg hp] at h
        simp only [Except.ok.injEq] at h
        subst h
        exact Bool.eq_false_iff.mpr hp
  · intro sid r stream hp hall
    rw [request_for_ecu, if_neg (pending_ne_nil hp), if_pos hp]
    exact wait_all_pending_timeout sid stream hall
  · intro sid r pre resp rest hp hall hne hnp
    rw [request_for_ecu, if_neg (pending_ne_nil hp), if_pos hp]
    exact wait_first_non_pending sid pre resp rest hall hne hnp

/-- C6 witness: after two pending responses to a `0x22` request, the final
response `62 F1 90 41` is returned; with only pending responses, timeout. -/
theorem uds_pending_never_surfaced_witness :
    request_for_ecu 0x22 (some [0x7F, 0x22, 0x78])
        [[0x7F, 0x22, 0x78], [0x62, 0xF1, 0x90, 0x41]] =
      Except.ok [0x62, 0xF1, 0x90, 0x41] ∧
    request_for_ecu 0x22 (some [0x7F, 0x22, 0x78]) [[0x7F, 0x22, 0x78]] =
      Except.error UdsErr.timeout := by
  constructor
  · exact uds_pending_never_surfaced.2.2.1 0x22 [0x7F, 0x22, 0x78] [[0x7F, 0x22, 0x78]]
      [0x62, 0xF1, 0x90, 0x41] [] (by decide)
      (by intro x hx; simp at hx; subst hx; decide) (by decide) (by decide)
  · exact uds_pending_never_surfaced.2.1 0x22 [0x7F, 0x22, 0x78] [[0x7F, 0x22, 0x78]]
      (by decide) (by intro x hx; simp at hx; subst hx; decide)

/-! ## Long-coding bit fields (src/autosvc/core/uds/longcoding.py) -/

/-- `_require_length(raw, expected, did=...)`: no check when `expected <= 0`,
otherwise the byte count must match exactly. -/
def require_length (raw : List Nat) (expected : Nat) : Except String Unit :=
  if expected = 0 then .ok ()
  else if raw.length ≠ expected then .error "unexpected coding length"
  else .ok ()

/-- `_get_bits(buf, byte, bit, length)`: extract `(buf[b] >> start) & mask`
after the range checks; a zero-width field reads as 0 before any check. -/
def get_bits (buf : List Nat) (byte bit length : Nat) : Except String Nat :=
  if length = 0 then .ok 0
  else if buf.length ≤ byte then .error "byte index out of range"
  else if 7 < bit then .error "bit must be 0..7"
  else if 8 < bit + length then .error "field crosses byte boundary (not supported in v1)"
  else .ok ((buf.getD byte 0 >>> bit) &&& ((1 <<< length) - 1))

/-- Python `x & ~y` on non-negative arbitrary-precision ints: clear in `x`
every bit set in `y`.  Written as `x ^^^ (x &&& y)` so that it evaluates in
the kernel; `andNot_testBit` gives its bitwise meaning. -/
def andNot (x y : Nat) : Nat := x ^^^ (x &&& y)

theorem andNot_testBit (x y k : Nat) :
    (andNot x y).testBit k = (x.testBit k && !(y.testBit k)) := by
  unfold andNot
  rw [Nat.testBit_xor, Nat.testBit_and]
  cases hx : x.testBit k <;> cases hy : y.testBit k <;> rfl

/-- `_set_bits(buf, byte, bit, length, value)`: clear bits
`[bit..bit+length)` of the target byte and set them to `value`
(`buf[b] = (buf[b] & ~(mask << start)) | ((v & mask) << start)`).
A zero-width field is a no-op before any check. -/
def set_bits (buf : List Nat) (byte bit length value : Nat) :
    Except String (List Nat) :=
  if length = 0 then .ok buf
  else if buf.length ≤ byte then .error "byte index out of range"
  else if 7 < bit then .error "bit must be 0..7"
  else if 8 < bit + length then .error "field crosses byte boundary (not supported in v1)"
  else if ((1 <<< length) - 1) < value then .error "value out of range for bitfield"
  else .ok (buf.set byte (andNot (buf.getD byte 0) (((1 <<< length) - 1) <<< bit) |||
      ((value &&& ((1 <<< length) - 1)) <<< bit)))

theorem one_shiftLeft_sub_one (n : Nat) : (1 <<< n) - 1 = 2 ^ n - 1 := by
  rw [Nat.shiftLeft_eq, Nat.one_mul]

/-- The bit-level behaviour of the byte written by `_set_bits`. -/
theorem setBitsByte_testBit (b0 bit len value : Nat) (hval : value < 2 ^ len) (k : Nat) :
    (andNot b0 (((1 <<< len) - 1) <<< bit) |||
        ((value &&& ((1 <<< len) - 1)) <<< bit)).testBit k =
      if bit ≤ k ∧ k < bit + len then value.testBit (k - bit) else b0.testBit k := by
  rw [one_shiftLeft_sub_one]
  rw [Nat.testBit_lor, andNot_testBit, Nat.testBit_shiftLeft, Nat.testBit_shiftLeft,
    Nat.testBit_and, Nat.testBit_two_pow_sub_one]
  by_cases hk : bit ≤ k
  · by_cases hk2 : k < bit + len
    · have hlt : k - bit < len := by omega
      simp [hk, hk2, hlt, Nat.testBit_two_pow_sub_one]
    · have hge : ¬(k - bit < len) := by omega
      have hvfalse : value.testBit (k - bit) = false :=
        Nat.testBit_lt_two_pow (lt_of_lt_of_le hval (Nat.pow_le_pow_right (by omega) (by omega)))
      simp [hk, hk2, hge, hvfalse, Nat.testBit_two_pow_sub_one]
  · simp [hk]

/-- C7: long-coding frame effect.  For a field with `bit + len ≤ 8` and an
in-range byte index, `_set_bits` succeeds and the new image differs from the
old one only in bits `[bit..bit+len)` of the target byte, which are set to
the encoded value; `_get_bits` reads back exactly the written value; writing
the same value again is idempotent (so write-then-read and a repeated write
agree); and `_require_length` rejects any image whose length differs from the
expected (positive) coding length. -/
theorem longcoding_frame_effect (buf : List Nat) (byte bit len value : Nat)
    (hb : byte < buf.length) (hbit : bit ≤ 7) (hlen : 1 ≤ len) (hcross : bit + len ≤ 8)
    (hval : value ≤ (1 <<< len) - 1) :
    (∃ out, set_bits buf byte bit len value = Except.ok out ∧
      out.length = buf.length ∧
      (∀ i, i ≠ byte → out.getD i 0 = buf.getD i 0) ∧
      (∀ k, k < bit ∨ bit + len ≤ k →
        (out.getD byte 0).testBit k = (buf.getD byte 0).testBit k) ∧
      (∀ k, k < len → (out.getD byte 0).testBit (bit + k) = value.testBit k) ∧
      get_bits out byte bit len = Except.ok value ∧
      set_bits out byte bit len value = Except.ok out) ∧
    (∀ (raw : List Nat) (exp : Nat), exp ≠ 0 → raw.length ≠ exp →
      require_length raw exp = Except.error "unexpected coding length") ∧
    (∀ (raw : List Nat) (exp : Nat), raw.length = exp →
      require_length raw exp = Except.ok ()) := by
  have hv2 : value < 2 ^ len := by
    rw [one_shiftLeft_sub_one] at hval
    have hpos : 0 < 2 ^ len := Nat.two_pow_pos len
    omega
  set b0 := buf.getD byte 0 with hb0
  set n := andNot b0 (((1 <<< len) - 1) <<< bit) |||
      ((value &&& ((1 <<< len) - 1)) <<< bit) with hn
  have hok : set_bits buf byte bit len value = Except.ok (buf.set byte n) := by
    rw [set_bits, if_neg (by omega), if_neg (by omega), if_neg (by omega),
      if_neg (by omega), if_neg (by omega)]
  have houtD : (buf.set byte n).getD byte 0 = n := by
    simp only [List.getD_eq_getElem?_getD]
    rw [List.getElem?_set_self (by simpa using hb)]
    rfl
  have hnbit := setBitsByte_testBit b0 bit len value hv2
  simp only [← hn] at hnbit
  refine ⟨⟨buf.set byte n, hok, by simp, ?_, ?_, ?_, ?_, ?_⟩, ?_, ?_⟩
  · intro i hi
    simp only [List.getD_eq_getElem?_getD]
    rw [List.getElem?_set_ne (fun h => hi h.symm)]
  · intro k hk
    rw [houtD, hnbit k, if_neg (by omega)]
  · intro k hk
    rw [houtD, hnbit (bit + k), if_pos (by omega)]
    congr 1
    omega
  · rw [get_bits, if_neg (by omega), if_neg (by simp; omega), if_neg (by omega),
      if_neg (by omega)]
    congr 1
    rw [houtD]
    apply Nat.eq_of_testBit_eq
    intro j
    rw [Nat.testBit_and, Nat.testBit_shiftRight, one_shiftLeft_sub_one,
      Nat.testBit_two_pow_sub_one, hnbit (bit + j)]
    by_cases hj : j < len
    · rw [if_pos (by omega)]
      have hbj : bit + j - bit = j := by omega
      simp [hbj, hj]
    · rw [if_neg (by omega)]
      have hvj : value.testBit j = false :=
        Nat.testBit_lt_two_pow (lt_of_lt_of_le hv2 (Nat.pow_le_pow_right (by omega) (by omega)))
      simp [hj, hvj]
  · have hn2 : andNot n (((1 <<< len) - 1) <<< bit) |||
        ((value &&& ((1 <<< len) - 1)) <<< bit) = n := by
      apply Nat.eq_of_testBit_eq
      intro k
      have hnn := setBitsByte_testBit n bit len value hv2 k
      rw [hnn]
      by_cases hc : bit ≤ k ∧ k < bit + len
      · rw [if_pos hc, hnbit k, if_pos hc]
      · rw [if_neg hc]
    rw [set_bits, if_neg (by omega), if_neg (by simp; omega), if_neg (by omega),
      if_neg (by omega), if_neg (by omega), houtD, hn2, List.set_set]
  · intro raw exp h1 h2
    rw [require_length, if_neg h1, if_pos h2]
  · intro raw exp h1
    rw [require_length]
    by_cases h0 : exp = 0
    · rw [if_pos h0]
    · rw [if_neg h0, if_neg (by omega)]

/-- C7 witness: scenario 5 of the spec — field at byte 2, bit 3, len 2 on
image `00 11 22 33 44`, value 2, yields `00 11 32 33 44`. -/
theorem longcoding_frame_effect_witness :
    set_bits [0x00, 0x11, 0x22, 0x33, 0x44] 2 3 2 2 =
        Except.ok [0x00, 0x11, 0x32, 0x33, 0x44] ∧
      get_bits [0x00, 0x11, 0x32, 0x33, 0x44] 2 3 2 = Except.ok 2 ∧
      require_length [0x00, 0x11] 5 = Except.error "unexpected coding length" := by
  obtain ⟨_, herr, _⟩ :=
    longcoding_frame_effect [0x00, 0x11, 0x22, 0x33, 0x44] 2 3 2 2
      (by decide) (by decide) (by decide) (by decide) (by decide)
  exact ⟨rfl, rfl, herr [0x00, 0x11] 5 (by decide) (by decide)⟩

/-! ## Backup id generation (src/autosvc/backups.py `BackupStore._next_id` and
src/autosvc/core/safety/backups.py `BackupStore._next_id`) -/

/-- `backups.py BackupStore._next_id`: the last `backup_id` recorded in
`index.jsonl` (its last non-empty line; 0 when there is no index) plus one.
The index is modelled by the list of backup-id numbers of its lines. -/
def next_id (index : List Nat) : Nat := index.getLast?.getD 0 + 1

/-- Python `f"{n:06d}"`: the decimal digits of `n`, left-padded with zeros to
at least six characters. -/
def fmt6 (n : Nat) : List Char :=
  List.replicate (6 - (toString n).toList.length) '0' ++ (toString n).toList

/-- `backups.py BackupStore.create_backup` appends the newly assigned record
(carrying `next_id index`) as the new last line of `index.jsonl`. -/
def create_backup_ids (index : List Nat) : List Nat := index ++ [next_id index]

/-- The index after `n` consecutive `create_backup` calls. -/
def create_iter (index : List Nat) : Nat → List Nat
  | 0 => index
  | n + 1 => create_backup_ids (create_iter index n)

/-- `core/safety/backups.py BackupStore._next_id`: `index.txt` stores the last
assigned counter (`none` when absent); next is last plus one and the file is
rewritten with it. -/
def safety_next_id (counter : Option Nat) : Nat := counter.getD 0 + 1

/-- The `index.txt` counter after n consecutive `create_backup` calls on the
safety-store variant. -/
def safety_iter (counter : Option Nat) : Nat → Option Nat
  | 0 => counter
  | n + 1 => some (safety_next_id (safety_iter counter n))

theorem next_id_create_iter (index : List Nat) :
    ∀ n : Nat, next_id (create_iter index n) = index.getLast?.getD 0 + n + 1 := by
  intro n
  induction n with
  | zero => rfl
  | succ n ih =>
    show next_id (create_backup_ids (create_iter index n)) = _
    unfold next_id create_backup_ids
    rw [List.getLast?_concat]
    simp only [Option.getD_some]
    omega

theorem safety_next_id_iter (counter : Option Nat) :
    ∀ n : Nat, safety_next_id (safety_iter counter n) = counter.getD 0 + n + 1 := by
  intro n
  induction n with
  | zero => rfl
  | succ n ih =>
    have h1 : safety_next_id (some (safety_next_id (safety_iter counter n))) =
        safety_next_id (safety_iter counter n) + 1 := rfl
    show safety_next_id (some (safety_next_id (safety_iter counter n))) = _
    omega

/-- C4: backup id generation.  A new record gets the zero-padded 6-digit
decimal of the last `backup_id` in the index plus one, starting at `000001`
when no index exists; across any sequence of creates on one store the ids
are strictly increasing, and an id at or below the index's current last entry
(in particular, any gap below it) is never assigned again.  The same holds
for the `index.txt`-counter variant in `core/safety/backups.py`. -/
theorem backup_id_generation :
    (next_id [] = 1 ∧ fmt6 (next_id []) = ['0', '0', '0', '0', '0', '1']) ∧
    (∀ (index : List Nat) (n : Nat),
      next_id (create_iter index n) = index.getLast?.getD 0 + n + 1) ∧
    (∀ (index : List Nat) (n m : Nat), n < m →
      next_id (create_iter index n) < next_id (create_iter index m)) ∧
    (∀ (index : List Nat) (g n : Nat), g ≤ index.getLast?.getD 0 →
      next_id (create_iter index n) ≠ g) ∧
    (∀ (counter : Option Nat) (n : Nat),
      safety_next_id (safety_iter counter n) = counter.getD 0 + n + 1) ∧
    (∀ (counter : Option Nat) (n m : Nat), n < m →
      safety_next_id (safety_iter counter n) < safety_next_id (safety_iter counter m)) := by
  refine ⟨⟨rfl, by decide⟩, next_id_create_iter, ?_, ?_, safety_next_id_iter, ?_⟩
  · intro index n m hnm
    rw [next_id_create_iter index n, next_id_create_iter index m]
    omega
  · intro index g n hg
    rw [next_id_create_iter index n]
    omega
  · intro counter n m hnm
    rw [safety_next_id_iter counter n, safety_next_id_iter counter m]
    omega

/-- C4 witness: starting from an index whose last id is 41, three creates
assign 42, 43, 44; an empty index starts at `000001`. -/
theorem backup_id_generation_witness :
    next_id [] = 1 ∧ fmt6 1 = ['0', '0', '0', '0', '0', '1'] ∧
      next_id (create_iter [40, 41] 0) = 42 ∧
      next_id (create_iter [40, 41] 1) = 43 ∧
      next_id (create_iter [40, 41] 2) = 44 ∧
      next_id (create_iter [40, 41] 1) ≠ 17 := by
  have h := backup_id_generation
  refine ⟨h.1.1, h.1.2, ?_, ?_, ?_, h.2.2.2.1 [40, 41] 17 1 (by decide)⟩
  · simpa using h.2.1 [40, 41] 0
  · simpa using h.2.1 [40, 41] 1
  · simpa using h.2.1 [40, 41] 2

/-! ## Hex strings (`bytes.hex().upper()` and `_parse_hex`) -/

/-- One byte as two upper-case hex characters, as in `bytes.hex().upper()`. -/
def byteHex (b : Nat) : List Char := [hexChar (b / 16), hexChar (b % 16)]

/-- `raw.hex().upper()` for a byte string, as its character list. -/
def hexUpper (bs : List Nat) : List Char := (bs.map byteHex).flatten

/-- Value of one hex character, accepting both cases as `bytes.fromhex` does. -/
def hexVal (c : Char) : Option Nat :=
  let n := c.toNat
  if 48 ≤ n ∧ n ≤ 57 then some (n - 48)
  else if 65 ≤ n ∧ n ≤ 70 then some (n - 55)
  else if 97 ≤ n ∧ n ≤ 102 then some (n - 87)
  else none

/-- `bytes.fromhex` on an even-length character list. -/
def hexPairs : List Char → Option (List Nat)
  | [] => some []
  | c1 :: c2 :: rest =>
    match hexVal c1, hexVal c2, hexPairs rest with
    | some h, some l, some bs => some ((16 * h + l) :: bs)
    | _, _, _ => none
  | [_] => none

/-- `_parse_hex(value)` (identical in adaptations.py and longcoding.py) on an
already-stripped value without a `0x` prefix: empty means `b""`, odd length
is an error, and any non-hex character is an error. -/
def parse_hex (chars : List Char) : Except String (List Nat) :=
  if chars = [] then .ok []
  else if chars.length % 2 ≠ 0 then .error "hex payload must have even length"
  else
    match hexPairs chars with
    | some bs => .ok bs
    | none => .error "invalid hex payload"

theorem hexVal_hexChar {n : Nat} (h : n < 16) : hexVal (hexChar n) = some n := by
  have hd : ∀ m, m < 16 → hexVal (hexChar m) = some m := by decide
  exact hd n h

theorem hexPairs_hexUpper (bs : List Nat) (h : ∀ b ∈ bs, b < 256) :
    hexPairs (hexUpper bs) = some bs := by
  induction bs with
  | nil => rfl
  | cons b rest ih =>
    have hb : b < 256 := h b (List.mem_cons_self b rest)
    have hrest := ih fun x hx => h x (List.mem_cons_of_mem b hx)
    show hexPairs (byteHex b ++ hexUpper rest) = some (b :: rest)
    simp only [byteHex, List.cons_append, List.nil_append]
    rw [hexPairs]
    rw [hexVal_hexChar (by omega : b / 16 < 16), hexVal_hexChar (by omega : b % 16 < 16), hrest]
    show some ((16 * (b / 16) + b % 16) :: rest) = some (b :: rest)
    have hbeq : 16 * (b / 16) + b % 16 = b := by omega
    rw [hbeq]

theorem hexUpper_length (bs : List Nat) : (hexUpper bs).length = 2 * bs.length := by
  induction bs with
  | nil => rfl
  | cons b rest ih =>
    show (byteHex b ++ hexUpper rest).length = _
    simp only [List.length_append, byteHex, List.length_cons, List.length_nil, ih,
      List.length_cons]
    omega

/-- `_parse_hex` inverts `bytes.hex().upper()`. -/
theorem parse_hex_hexUpper (bs : List Nat) (h : ∀ b ∈ bs, b < 256) :
    parse_hex (hexUpper bs) = Except.ok bs := by
  by_cases hnil : bs = []
  · subst hnil
    rfl
  · rw [parse_hex]
    have hlen := hexUpper_length bs
    have hne : hexUpper bs ≠ [] := by
      intro hcontra
      rw [hcontra] at hlen
      simp only [List.length_nil] at hlen
      have : bs.length = 0 := by omega
      exact hnil (List.length_eq_zero.mp this)
    rw [if_neg hne, if_neg (by omega : ¬(hexUpper bs).length % 2 ≠ 0), hexPairs_hexUpper bs h]

/-! ## Backup records and revert (src/autosvc/backups.py,
src/autosvc/core/safety/backups.py, and the `revert` entry points in
src/autosvc/core/uds/longcoding.py and src/autosvc/core/uds/adaptations.py) -/

/-- The JSON object persisted for a backup, as the loaders see it
(`obj.get(...)`): every field may be absent, and an absent or empty hex
string is `none` (Python falsiness).  The `did` field is stored as `"%04X"`
and re-parsed with `int(_, 16) & 0xFFFF`; that round trip is modelled by
keeping the number itself. -/
structure StoredRecord where
  kind : Option String
  ecu : String
  did : Nat
  key : Option String
  old_hex : Option (List Char)
  new_hex : Option (List Char)
  raw_hex : Option (List Char)

/-- The record returned by `backups.py BackupStore.load` (the store used by
the long-coding manager). -/
structure LoadedRecord where
  kind : String
  ecu : String
  did : Nat
  old_hex : Option (List Char)
  new_hex : Option (List Char)
  raw_hex : Option (List Char)

/-- `backups.py BackupStore.load`: requires a 2-character ECU and
`kind ∈ {"did_write", "did_snapshot"}`; hex fields stay optional. -/
def backups_load (r : StoredRecord) : Except String LoadedRecord :=
  let kind := r.kind.getD ""
  if r.ecu = "" ∨ r.ecu.length ≠ 2 then .error "invalid backup record"
  else if ¬(kind = "did_write" ∨ kind = "did_snapshot") then .error "invalid backup record"
  else .ok { kind := kind, ecu := r.ecu, did := r.did &&& 0xFFFF,
             old_hex := r.old_hex, new_hex := r.new_hex, raw_hex := r.raw_hex }

/-- The record returned by `core/safety/backups.py BackupStore.load` (the
store used by the adaptations manager): no `kind` field exists, and both
`old_hex` and `new_hex` must be non-empty. -/
structure SafetyRecord where
  ecu : String
  did : Nat
  old_hex : List Char
  new_hex : List Char

/-- `core/safety/backups.py BackupStore.load`. -/
def safety_load (r : StoredRecord) : Except String SafetyRecord :=
  if r.ecu = "" ∨ r.ecu.length ≠ 2 then .error "invalid backup record"
  else
    match r.old_hex, r.new_hex with
    | some oh, some nh =>
      .ok { ecu := r.ecu, did := r.did &&& 0xFFFF, old_hex := oh, new_hex := nh }
    | _, _ => .error "invalid backup record"

/-- ECU memory visible over UDS: bytes per (ECU, DID). -/
def Mem : Type := String → Nat → List Nat

/-- `LongCodingManager.revert`: load via `backups.py`, reject anything that is
not a `did_write` record with a non-empty `old_hex`, write `old_hex` back,
read back, return the restored bytes as uppercase hex.  The first component
is the resulting ECU memory (unchanged on error). -/
def lc_revert (mem : Mem) (r : StoredRecord) : Mem × Except String (List Char) :=
  match backups_load r with
  | .error e => (mem, .error e)
  | .ok rec =>
    if rec.kind ≠ "did_write" ∨ rec.old_hex = none then
      (mem, .error "backup is not a write backup")
    else
      match parse_hex (rec.old_hex.getD []) with
      | .error e => (mem, .error e)
      | .ok old =>
        let mem2 : Mem := fun e d => if e = rec.ecu ∧ d = rec.did then old else mem e d
        (mem2, .ok (hexUpper (mem2 rec.ecu rec.did)))

/-- `AdaptationsManager.revert`: load via `core/safety/backups.py` (which has
no `kind` and demands non-empty `old_hex`/`new_hex`), write `old_hex` back,
read back, return the restored bytes as uppercase hex. -/
def adapt_revert (mem : Mem) (r : StoredRecord) : Mem × Except String (List Char) :=
  match safety_load r with
  | .error e => (mem, .error e)
  | .ok rec =>
    match parse_hex rec.old_hex with
    | .error e => (mem, .error e)
    | .ok old =>
      let mem2 : Mem := fun e d => if e = rec.ecu ∧ d = rec.did then old else mem e d
      (mem2, .ok (hexUpper (mem2 rec.ecu rec.did)))

/-- `backups.py create_write_backup` (via `create_backup`): the persisted
object; an empty hex string is stored and re-read as falsy (`none`).  The
`str(ecu).upper()` normalization is the identity here because the managers
always pass the `_normalize_ecu` output `f"{ecu_int:02X}"` (two uppercase
hex characters). -/
def mk_write_record (ecu : String) (did : Nat) (old new : List Nat) : StoredRecord :=
  { kind := some "did_write", ecu := ecu, did := did &&& 0xFFFF, key := none,
    old_hex := if old = [] then none else some (hexUpper old),
    new_hex := if new = [] then none else some (hexUpper new),
    raw_hex := none }

/-- `backups.py create_snapshot_backup` (via `create_backup`): only
`raw_hex` is populated. -/
def mk_snapshot_record (ecu : String) (did : Nat) (raw : List Nat) : StoredRecord :=
  { kind := some "did_snapshot", ecu := ecu, did := did &&& 0xFFFF, key := none,
    old_hex := none, new_hex := none,
    raw_hex := if raw = [] then none else some (hexUpper raw) }

/-- `core/safety/backups.py create_backup`: no `kind` key is persisted. -/
def mk_safety_write_record (ecu : String) (did : Nat) (old new : List Nat) : StoredRecord :=
  { kind := none, ecu := ecu, did := did &&& 0xFFFF, key := none,
    old_hex := if old = [] then none else some (hexUpper old),
    new_hex := if new = [] then none else some (hexUpper new),
    raw_hex := none }

theorem and_ffff_idem (d : Nat) : (d &&& 0xFFFF) &&& 0xFFFF = d &&& 0xFFFF := by
  rw [Nat.and_assoc, Nat.and_self]

/-- C5: revert policy.  Snapshot backups are rejected with an error by both
revert entry points and leave the ECU unchanged; a successful long-coding
revert is only possible for a record of kind `did_write`; and for the write
records the engine itself creates, both entry points restore the recorded
`old_hex` bytes to the recorded DID, touch nothing else, and return the
read-back (restored) bytes as uppercase hex. -/
theorem revert_policy :
    (∀ (mem : Mem) (ecu : String) (did : Nat) (raw : List Nat),
      ecu ≠ "" → ecu.length = 2 →
      lc_revert mem (mk_snapshot_record ecu did raw) =
          (mem, Except.error "backup is not a write backup") ∧
        adapt_revert mem (mk_snapshot_record ecu did raw) =
          (mem, Except.error "invalid backup record")) ∧
    (∀ (mem : Mem) (r : StoredRecord) (mem2 : Mem) (hx : List Char),
      lc_revert mem r = (mem2, Except.ok hx) → r.kind = some "did_write") ∧
    (∀ (mem : Mem) (ecu : String) (did : Nat) (old new : List Nat),
      ecu ≠ "" → ecu.length = 2 → old ≠ [] → new ≠ [] → (∀ b ∈ old, b < 256) →
      (∃ mem2, lc_revert mem (mk_write_record ecu did old new) =
          (mem2, Except.ok (hexUpper old)) ∧
        mem2 ecu (did &&& 0xFFFF) = old ∧
        (∀ e d, ¬(e = ecu ∧ d = did &&& 0xFFFF) → mem2 e d = mem e d)) ∧
      (∃ mem2, adapt_revert mem (mk_safety_write_record ecu did old new) =
          (mem2, Except.ok (hexUpper old)) ∧
        mem2 ecu (did &&& 0xFFFF) = old ∧
        (∀ e d, ¬(e = ecu ∧ d = did &&& 0xFFFF) → mem2 e d = mem e d))) := by
  refine ⟨?_, ?_, ?_⟩
  · intro mem ecu did raw hne hlen
    have hecu : ¬(ecu = "" ∨ ecu.length ≠ 2) := by
      push_neg
      exact ⟨hne, by omega⟩
    have hload : backups_load (mk_snapshot_record ecu did raw) =
        Except.ok
          { kind := "did_snapshot", ecu := ecu, did := (did &&& 0xFFFF) &&& 0xFFFF,
            old_hex := none, new_hex := none,
            raw_hex := if raw = [] then none else some (hexUpper raw) } := by
      rw [backups_load]
      simp only [mk_snapshot_record, Option.getD_some]
      rw [if_neg hecu, if_neg (by decide)]
    have hsload : safety_load (mk_snapshot_record ecu did raw) =
        Except.error "invalid backup record" := by
      rw [safety_load]
      simp only [mk_snapshot_record]
      rw [if_neg hecu]
    constructor
    · simp only [lc_revert, hload]
      simp
    · simp only [adapt_revert, hsload]
  · intro mem r mem2 hx h
    rw [lc_revert] at h
    cases hload : backups_load r with
    | error e =>
      rw [hload] at h
      simp at h
    | ok rec =>
      rw [hload] at h
      simp only [] at h
      by_cases hkind : rec.kind ≠ "did_write" ∨ rec.old_hex = none
      · rw [if_pos hkind] at h
        simp at h
      · push_neg at hkind
        rw [backups_load] at hload
        by_cases hc1 : r.ecu = "" ∨ r.ecu.length ≠ 2
        · rw [if_pos hc1] at hload
          exact absurd hload (by simp)
        rw [if_neg hc1] at hload
        by_cases hc2 : ¬(r.kind.getD "" = "did_write" ∨ r.kind.getD "" = "did_snapshot")
        · rw [if_pos hc2] at hload
          exact absurd hload (by simp)
        rw [if_neg hc2] at hload
        have hreck : rec.kind = r.kind.getD "" := by
          have hinj := (Except.ok.injEq _ _).mp hload
          rw [← hinj]
        have hk : r.kind.getD "" = "did_write" := by rw [← hreck]; exact hkind.1
        cases hko : r.kind with
        | none =>
          rw [hko] at hk
          simp at hk
        | some k =>
          rw [hko] at hk
          simp only [Option.getD_some] at hk
          rw [hk]
  · intro mem ecu did old new hne hlen hold hnew hbytes
    have hecu : ¬(ecu = "" ∨ ecu.length ≠ 2) := by
      push_neg
      exact ⟨hne, by omega⟩
    have hparse := parse_hex_hexUpper old hbytes
    constructor
    · have hload : backups_load (mk_write_record ecu did old new) =
          Except.ok
            { kind := "did_write", ecu := ecu, did := (did &&& 0xFFFF) &&& 0xFFFF,
              old_hex := some (hexUpper old),
              new_hex := if new = [] then none else some (hexUpper new),
              raw_hex := none } := by
        rw [backups_load]
        simp only [mk_write_record, Option.getD_some]
        rw [if_neg hecu, if_neg (by decide)]
        simp [hold]
      refine ⟨fun e d => if e = ecu ∧ d = (did &&& 0xFFFF) &&& 0xFFFF then old
        else mem e d, ?_, ?_, ?_⟩
      · simp only [lc_revert, hload]
        rw [if_neg (by simp)]
        simp only [Option.getD_some, hparse]
        simp
      · beta_reduce
        rw [if_pos ⟨rfl, (and_ffff_idem did).symm⟩]
      · intro e d hc
        beta_reduce
        rw [if_neg (by
          intro hcc
          exact hc ⟨hcc.1, by rw [hcc.2, and_ffff_idem]⟩)]
    · have hsload : safety_load (mk_safety_write_record ecu did old new) =
          Except.ok
            { ecu := ecu, did := (did &&& 0xFFFF) &&& 0xFFFF,
              old_hex := hexUpper old, new_hex := hexUpper new } := by
        rw [safety_load]
        simp only [mk_safety_write_record]
        rw [if_neg hecu]
        simp [hold, hnew]
      refine ⟨fun e d => if e = ecu ∧ d = (did &&& 0xFFFF) &&& 0xFFFF then old
        else mem e d, ?_, ?_, ?_⟩
      · simp only [adapt_revert, hsload, hparse]
        simp
      · beta_reduce
        rw [if_pos ⟨rfl, (and_ffff_idem did).symm⟩]
      · intro e d hc
        beta_reduce
        rw [if_neg (by
          intro hcc
          exact hc ⟨hcc.1, by rw [hcc.2, and_ffff_idem]⟩)]

/-- C5 witness: a snapshot record for ECU `01` is rejected by both entry
points, and the write record `{old := [0x00], new := [0x01]}` reverts to
`[0x00]` (hex `"00"`). -/
theorem revert_policy_witness :
    (lc_revert (fun _ _ => [0x01]) (mk_snapshot_record "01" 0x2001 [0x42])).2 =
        Except.error "backup is not a write backup" ∧
      (adapt_revert (fun _ _ => [0x01]) (mk_snapshot_record "01" 0x2001 [0x42])).2 =
        Except.error "invalid backup record" ∧
      (lc_revert (fun _ _ => [0x01]) (mk_write_record "01" 0x2001 [0x00] [0x01])).2 =
        Except.ok ['0', '0'] ∧
      (adapt_revert (fun _ _ => [0x01]) (mk_safety_write_record "01" 0x2001 [0x00] [0x01])).2 =
        Except.ok ['0', '0'] := by
  obtain ⟨hsnap, _, hwrite⟩ := revert_policy
  obtain ⟨h1, h2⟩ := hsnap (fun _ _ => [0x01]) "01" 0x2001 [0x42] (by decide) (by decide)
  obtain ⟨⟨m1, hm1, _, _⟩, ⟨m2, hm2, _, _⟩⟩ :=
    hwrite (fun _ _ => [0x01]) "01" 0x2001 [0x00] [0x01] (by decide) (by decide)
      (by decide) (by decide) (by decide)
  refine ⟨by rw [h1], by rw [h2], ?_, ?_⟩
  · rw [hm1]
    show Except.ok (hexUpper [0x00]) = Except.ok ['0', '0']
    exact congrArg Except.ok (by decide)
  · rw [hm2]
    show Except.ok (hexUpper [0x00]) = Except.ok ['0', '0']
    exact congrArg Except.ok (by decide)

/-! ## Mode gate, typed encoding, and the write sequence
(src/autosvc/core/uds/adaptations.py, longcoding.py, service.py, unsafe.py).
Python strings that undergo `.strip()`/`.lower()` are modelled as `List Char`
(the built-in `String.trim`/`toLower` do not evaluate in the kernel). -/

/-- Python `s.strip()` (default whitespace). -/
def pyStrip (s : List Char) : List Char :=
  ((s.dropWhile fun c => c.isWhitespace).reverse.dropWhile fun c => c.isWhitespace).reverse

/-- Python `s.lower()` (ASCII model). -/
def pyLower (s : List Char) : List Char := s.map Char.toLower

/-- `(s or "").strip().lower()` as used on mode and risk strings. -/
def pyStripLower (s : List Char) : List Char := pyLower (pyStrip s)

/-- `adaptations.py _enforce_mode(mode, risk, dataset_key=...)`. -/
def adaptations_enforce_mode (mode risk : List Char) : Except String Unit :=
  let m := pyStripLower mode
  let r := pyStripLower risk
  if ¬(m = "safe".toList ∨ m = "advanced".toList ∨ m = "unsafe".toList) then
    .error "invalid mode"
  else if m = "safe".toList ∧ r ≠ "safe".toList then
    .error "setting is not allowed in safe mode"
  else if m = "advanced".toList ∧ ¬(r = "safe".toList ∨ r = "risky".toList) then
    .error "setting is not allowed in advanced mode"
  else .ok ()

/-- `longcoding.py _enforce_mode(mode, risk, dataset_key=...)`: `safe` is
always read-only. -/
def longcoding_enforce_mode (mode risk : List Char) : Except String Unit :=
  let m := pyStripLower mode
  let r := pyStripLower risk
  if ¬(m = "safe".toList ∨ m = "advanced".toList ∨ m = "unsafe".toList) then
    .error "invalid mode"
  else if m = "safe".toList then
    .error "safe mode is read-only (use --mode advanced or --mode unsafe)"
  else if m = "advanced".toList ∧ ¬(r = "safe".toList ∨ r = "risky".toList) then
    .error "field is not allowed in advanced mode"
  else .ok ()

/-- Digits-only parse: Python `int(s)` on a string for which `s.isdigit()`
holds, and the digit check itself. -/
def parseDigits (s : List Char) : Option Nat :=
  if s = [] then none
  else if s.all (fun c => c.isDigit) then
    some (s.foldl (fun acc c => 10 * acc + (c.toNat - '0'.toNat)) 0)
  else none

/-- Python `s.isdigit()`. -/
def isDigitList (s : List Char) : Bool := decide (s ≠ []) && s.all (fun c => c.isDigit)

/-- Model of Python `int(raw, 10)`: optional sign followed by digits. -/
def parseDec (s : List Char) : Option Int :=
  match s with
  | '-' :: ds => (parseDigits ds).map (fun n => -(n : Int))
  | '+' :: ds => (parseDigits ds).map (fun n => (n : Int))
  | ds => (parseDigits ds).map (fun n => (n : Int))

/-- `_parse_hex(value)` including the strip and `0x`/`0X` prefix handling. -/
def parse_hex_py (value : List Char) : Except String (List Nat) :=
  let raw := pyStrip value
  let raw := if raw.take 2 = ['0', 'x'] ∨ raw.take 2 = ['0', 'X'] then raw.drop 2 else raw
  parse_hex raw

/-- `adaptations.py _encode_value(spec, value)`: the raw bytes written for a
typed setting value. -/
def encode_value (kind : String) (enum : List (List Char × List Char))
    (value : List Char) : Except String (List Nat) :=
  let raw := pyStrip value
  if kind = "bool" then
    let v := pyLower raw
    if v = "true".toList ∨ v = "1".toList then .ok [0x01]
    else if v = "false".toList ∨ v = "0".toList then .ok [0x00]
    else .error "invalid bool value (expected true/false/1/0)"
  else if kind = "u8" then
    match parseDec raw with
    | none => .error "invalid u8 value"
    | some n =>
      if n < 0 ∨ 0xFF < n then .error "u8 out of range"
      else .ok [n.toNat &&& 0xFF]
  else if kind = "u16" then
    match parseDec raw with
    | none => .error "invalid u16 value"
    | some n =>
      if n < 0 ∨ 0xFFFF < n then .error "u16 out of range"
      else .ok [n.toNat / 256, n.toNat % 256]
  else if kind = "i16" then
    match parseDec raw with
    | none => .error "invalid i16 value"
    | some n =>
      if n < -32768 ∨ 32767 < n then .error "i16 out of range"
      else
        let m := (n + 65536).toNat % 65536
        .ok [m / 256, m % 256]
  else if kind = "bytes" then parse_hex_py raw
  else if kind = "enum" then
    if enum ≠ [] ∧ isDigitList raw ∧ (enum.find? (fun kv => kv.1 = raw)).isSome then
      .ok [(parseDigits raw).getD 0 &&& 0xFF]
    else if enum ≠ [] ∧ (enum.find? (fun kv => pyLower kv.2 = pyLower raw)).isSome then
      .ok [(parseDigits (((enum.find? (fun kv => pyLower kv.2 = pyLower raw)).getD
        ([], [])).1)).getD 0 &&& 0xFF]
    else
      match parseDec raw with
      | none => .error "invalid enum value"
      | some n =>
        if n < 0 ∨ 0xFF < n then .error "enum out of range"
        else .ok [n.toNat &&& 0xFF]
  else .error "invalid kind"

/-- `longcoding.py _encode_field_value(spec, value)`: the (possibly negative,
later range-checked) integer for a bit field. -/
def encode_field_value (kind : String) (enum : List (List Char × List Char))
    (value : List Char) : Except String Int :=
  let raw := pyStrip value
  if kind = "bool" then
    let v := pyLower raw
    if v = "true".toList ∨ v = "1".toList ∨ v = "yes".toList ∨ v = "on".toList then .ok 1
    else if v = "false".toList ∨ v = "0".toList ∨ v = "no".toList ∨ v = "off".toList then .ok 0
    else .error "invalid bool value (expected true/false/1/0)"
  else if kind = "enum" then
    if enum ≠ [] ∧ isDigitList raw ∧ (enum.find? (fun kv => kv.1 = raw)).isSome then
      .ok ((parseDigits raw).getD 0 : Int)
    else if enum ≠ [] ∧ (enum.find? (fun kv => pyLower kv.2 = pyLower raw)).isSome then
      .ok (((parseDigits (((enum.find? (fun kv => pyLower kv.2 = pyLower raw)).getD
        ([], [])).1)).getD 0 : Nat) : Int)
    else if isDigitList raw then .ok ((parseDigits raw).getD 0 : Int)
    else .error "invalid enum value"
  else if kind = "u8" then
    match parseDec raw with
    | none => .error "invalid u8 value"
    | some n => .ok n
  else .error "invalid kind"

/-- The UDS-visible operations an adaptation or long-coding write performs,
in order. -/
inductive UdsOp where
  | readDid (did : Nat) (raw : List Nat)
  | createBackup (old_hex new_hex : List Char)
  | writeDid (did : Nat) (raw : List Nat)
  deriving DecidableEq, Repr

/-- The parts of an `AdaptSettingSpec` that `write_setting` consumes. -/
structure AdaptWriteSpec where
  risk : List Char
  kind : String
  enum : List (List Char × List Char)
  did : Nat

/-- `AdaptationsManager.write_setting`: enforce the mode, read the current
DID, encode the new value, create the write backup, issue the DID write, and
read back.  The ECU memory is `mem : did → bytes` (the manager has set the
active ECU); the trace lists the operations performed up to an error. -/
def write_setting_trace (mem : Nat → List Nat) (spec : AdaptWriteSpec)
    (value mode : List Char) : List UdsOp × Except String (Nat → List Nat) :=
  match adaptations_enforce_mode mode spec.risk with
  | .error e => ([], .error e)
  | .ok _ =>
    let old_raw := mem spec.did
    match encode_value spec.kind spec.enum value with
    | .error e => ([.readDid spec.did old_raw], .error e)
    | .ok new_raw =>
      let mem2 := fun d => if d = spec.did then new_raw else mem d
      ([.readDid spec.did old_raw,
        .createBackup (hexUpper old_raw) (hexUpper new_raw),
        .writeDid spec.did new_raw,
        .readDid spec.did (mem2 spec.did)],
       .ok mem2)

/-- The parts of a `LongCodingFieldSpec` that `write_field` consumes
(`did` and `codingLength` already resolved against the profile defaults). -/
structure LcWriteSpec where
  risk : List Char
  kind : String
  enum : List (List Char × List Char)
  did : Nat
  byte : Nat
  bit : Nat
  length : Nat
  codingLength : Nat

/-- `LongCodingManager.write_field`: enforce the mode, read the current DID,
check its length, encode and splice the field value, create the write
backup, issue the DID write, read back, and re-check the length.  The
`v < 0` arm of `_set_bits`'s range check is hoisted in front of `set_bits`
because the model's `set_bits` takes a `Nat`. -/
def write_field_trace (mem : Nat → List Nat) (spec : LcWriteSpec)
    (value mode : List Char) : List UdsOp × Except String (Nat → List Nat) :=
  match longcoding_enforce_mode mode spec.risk with
  | .error e => ([], .error e)
  | .ok _ =>
    let old_raw := mem spec.did
    match require_length old_raw spec.codingLength with
    | .error e => ([.readDid spec.did old_raw], .error e)
    | .ok _ =>
      match encode_field_value spec.kind spec.enum value with
      | .error e => ([.readDid spec.did old_raw], .error e)
      | .ok v =>
        match (if v < 0 then Except.error "value out of range for bitfield"
            else set_bits old_raw spec.byte spec.bit spec.length v.toNat) with
        | .error e => ([.readDid spec.did old_raw], .error e)
        | .ok new_raw =>
          let mem2 := fun d => if d = spec.did then new_raw else mem d
          let readback := mem2 spec.did
          match require_length readback spec.codingLength with
          | .error e =>
            ([.readDid spec.did old_raw,
              .createBackup (hexUpper old_raw) (hexUpper new_raw),
              .writeDid spec.did new_raw,
              .readDid spec.did readback], .error e)
          | .ok _ =>
            ([.readDid spec.did old_raw,
              .createBackup (hexUpper old_raw) (hexUpper new_raw),
              .writeDid spec.did new_raw,
              .readDid spec.did readback], .ok mem2)

/-- `unsafe.py _consteq(a, b)`: constant-time comparison by or-folding the
byte xors. -/
def consteq (a b : List Nat) : Bool :=
  if a.length ≠ b.length then false
  else decide ((List.zipWith (fun x y => x ^^^ y) a b).foldl (fun acc z => acc ||| z) 0 = 0)

/-- `unsafe.py verify_password(password)`: empty passwords never verify;
otherwise the derived key (`kdf`, modelling `hashlib.scrypt` with the stored
salt and parameters) is compared against the stored expected key with
`_consteq`. -/
def verify_password (kdf : List Char → List Nat) (expected : List Nat)
    (password : List Char) : Bool :=
  if password = [] then false
  else consteq (kdf password) expected

/-- `DiagnosticService.write_adaptation`: in `unsafe` mode a password must be
supplied and must verify (`require_password`) before anything else happens;
only then is the manager's write sequence invoked.  (The optional
SecurityAccess unlock step for callers passing `security_level` is not
modelled.) -/
def service_write_adaptation (mem : Nat → List Nat) (spec : AdaptWriteSpec)
    (value mode : List Char) (password : Option (List Char))
    (kdf : List Char → List Nat) (expected : List Nat) :
    List UdsOp × Except String (Nat → List Nat) :=
  if pyStripLower mode = "unsafe".toList then
    match password with
    | none => ([], .error "unsafe password is required")
    | some pw =>
      if verify_password kdf expected pw then write_setting_trace mem spec value mode
      else ([], .error "invalid unsafe password")
  else write_setting_trace mem spec value mode

theorem lor_eq_zero_iff (a b : Nat) : a ||| b = 0 ↔ a = 0 ∧ b = 0 := by
  constructor
  · intro h
    have hb : ∀ i, a.testBit i = false ∧ b.testBit i = false := by
      intro i
      have h1 : (a ||| b).testBit i = false := by
        rw [h]
        exact Nat.zero_testBit i
      rw [Nat.testBit_lor] at h1
      exact ⟨by cases ha : a.testBit i <;> simp [ha] at h1 ⊢,
        by cases hbv : b.testBit i <;> simp [hbv] at h1 ⊢⟩
    constructor
    · apply Nat.eq_of_testBit_eq
      intro i
      rw [(hb i).1, Nat.zero_testBit]
    · apply Nat.eq_of_testBit_eq
      intro i
      rw [(hb i).2, Nat.zero_testBit]
  · rintro ⟨rfl, rfl⟩
    rfl

theorem foldl_lor_eq_zero (l : List Nat) :
    ∀ acc, (l.foldl (fun a z => a ||| z) acc = 0) ↔ (acc = 0 ∧ ∀ x ∈ l, x = 0) := by
  induction l with
  | nil => intro acc; simp
  | cons x l ih =>
    intro acc
    show (l.foldl (fun a z => a ||| z) (acc ||| x) = 0) ↔ _
    rw [ih (acc ||| x), lor_eq_zero_iff]
    constructor
    · rintro ⟨⟨h1, h2⟩, h3⟩
      exact ⟨h1, by
        intro y hy
        rcases List.mem_cons.mp hy with rfl | hy
        · exact h2
        · exact h3 y hy⟩
    · rintro ⟨h1, h2⟩
      exact ⟨⟨h1, h2 x (List.mem_cons_self x l)⟩,
        fun y hy => h2 y (List.mem_cons_of_mem x hy)⟩

theorem zipWith_xor_eq (a : List Nat) :
    ∀ b : List Nat, a.length = b.length →
      ((∀ z ∈ List.zipWith (fun x y => x ^^^ y) a b, z = 0) ↔ a = b) := by
  induction a with
  | nil =>
    intro b hb
    have : b = [] := List.length_eq_zero.mp hb.symm
    subst this
    simp
  | cons x a ih =>
    intro b hb
    cases b with
    | nil => simp at hb
    | cons y bs =>
      have hb2 : a.length = bs.length := by
        simp only [List.length_cons] at hb
        omega
      simp only [List.zipWith_cons_cons, List.mem_cons, List.cons.injEq]
      constructor
      · intro h
        have hx : x ^^^ y = 0 := h _ (Or.inl rfl)
        refine ⟨Nat.xor_eq_zero.mp hx, (ih bs hb2).mp ?_⟩
        intro z hz
        exact h z (Or.inr hz)
      · rintro ⟨rfl, rfl⟩
        intro z hz
        rcases hz with rfl | hz
        · exact Nat.xor_self x
        · exact ((ih a hb2).mpr rfl) z hz

/-- `_consteq` decides equality of byte strings. -/
theorem consteq_iff (a b : List Nat) : consteq a b = true ↔ a = b := by
  rw [consteq]
  by_cases hlen : a.length ≠ b.length
  · rw [if_pos hlen]
    simp only [Bool.false_eq_true, false_iff]
    intro hc
    exact hlen (by rw [hc])
  · rw [if_neg hlen]
    push_neg at hlen
    rw [decide_eq_true_eq, foldl_lor_eq_zero]
    simp only [true_and]
    exact ⟨fun h => (zipWith_xor_eq a b hlen).mp h, fun h => (zipWith_xor_eq a b hlen).mpr h⟩

/-- C3: write mode gate.  At the managers, adaptations mode `safe` succeeds
exactly for risk `safe`, `advanced` exactly for risks `safe` or `risky`, and
`unsafe` for any risk; long-coding mode `safe` is always rejected
(read-only) while `advanced`/`unsafe` behave as for adaptations.  At the
service facade, `unsafe` mode requires a password that verifies against
the stored scrypt-derived key (constant-time compare against the stored
hash; empty passwords never verify) before anything else runs — a missing
or non-verifying password yields an error with an empty operation trace
(no backup, no UDS write) — and any mode/risk combination the managers
reject also produces an error before any UDS operation. -/
theorem write_mode_gate :
    (∀ risk : List Char, adaptations_enforce_mode "safe".toList risk = Except.ok () ↔
      pyStripLower risk = "safe".toList) ∧
    (∀ risk : List Char, adaptations_enforce_mode "advanced".toList risk = Except.ok () ↔
      (pyStripLower risk = "safe".toList ∨ pyStripLower risk = "risky".toList)) ∧
    (∀ risk : List Char, adaptations_enforce_mode "unsafe".toList risk = Except.ok ()) ∧
    (∀ risk : List Char, longcoding_enforce_mode "safe".toList risk =
      Except.error "safe mode is read-only (use --mode advanced or --mode unsafe)") ∧
    (∀ risk : List Char, longcoding_enforce_mode "advanced".toList risk = Except.ok () ↔
      (pyStripLower risk = "safe".toList ∨ pyStripLower risk = "risky".toList)) ∧
    (∀ risk : List Char, longcoding_enforce_mode "unsafe".toList risk = Except.ok ()) ∧
    (∀ (kdf : List Char → List Nat) (expected : List Nat) (pw : List Char),
      verify_password kdf expected pw = true ↔ (pw ≠ [] ∧ kdf pw = expected)) ∧
    (∀ (mem : Nat → List Nat) (spec : AdaptWriteSpec) (value mode : List Char)
        (kdf : List Char → List Nat) (expected : List Nat),
      pyStripLower mode = "unsafe".toList →
      service_write_adaptation mem spec value mode none kdf expected =
        ([], Except.error "unsafe password is required")) ∧
    (∀ (mem : Nat → List Nat) (spec : AdaptWriteSpec) (value mode pw : List Char)
        (kdf : List Char → List Nat) (expected : List Nat),
      pyStripLower mode = "unsafe".toList →
      verify_password kdf expected pw = false →
      service_write_adaptation mem spec value mode (some pw) kdf expected =
        ([], Except.error "invalid unsafe password")) ∧
    (∀ (mem : Nat → List Nat) (spec : AdaptWriteSpec) (value mode pw : List Char)
        (kdf : List Char → List Nat) (expected : List Nat),
      verify_password kdf expected pw = true →
      service_write_adaptation mem spec value mode (some pw) kdf expected =
        write_setting_trace mem spec value mode) ∧
    (∀ (mem : Nat → List Nat) (spec : AdaptWriteSpec) (value mode : List Char) (e : String),
      adaptations_enforce_mode mode spec.risk = Except.error e →
      write_setting_trace mem spec value mode = ([], Except.error e)) ∧
    (∀ (mem : Nat → List Nat) (spec : LcWriteSpec) (value mode : List Char) (e : String),
      longcoding_enforce_mode mode spec.risk = Except.error e →
      write_field_trace mem spec value mode = ([], Except.error e)) := by
  have hsafe : pyStripLower "safe".toList = "safe".toList := by decide
  have hadv : pyStripLower "advanced".toList = "advanced".toList := by decide
  have huns : pyStripLower "unsafe".toList = "unsafe".toList := by decide
  simp only [String.toList] at hsafe hadv huns
  refine ⟨?_, ?_, ?_, ?_, ?_, ?_, ?_, ?_, ?_, ?_, ?_, ?_⟩
  · intro risk
    by_cases hr : pyStripLower risk = ['s', 'a', 'f', 'e']
    · simp [adaptations_enforce_mode, hsafe, hr]
    · simp [adaptations_enforce_mode, hsafe, hr]
  · intro risk
    by_cases hr1 : pyStripLower risk = ['s', 'a', 'f', 'e']
    · simp [adaptations_enforce_mode, hadv, hr1]
    · by_cases hr2 : pyStripLower risk = ['r', 'i', 's', 'k', 'y']
      · simp [adaptations_enforce_mode, hadv, hr1, hr2]
      · simp [adaptations_enforce_mode, hadv, hr1, hr2]
  · intro risk
    simp [adaptations_enforce_mode, huns]
  · intro risk
    simp [longcoding_enforce_mode, hsafe]
  · intro risk
    by_cases hr1 : pyStripLower risk = ['s', 'a', 'f', 'e']
    · simp [longcoding_enforce_mode, hadv, hr1]
    · by_cases hr2 : pyStripLower risk = ['r', 'i', 's', 'k', 'y']
      · simp [longcoding_enforce_mode, hadv, hr1, hr2]
      · simp [longcoding_enforce_mode, hadv, hr1, hr2]
  · intro risk
    simp [longcoding_enforce_mode, huns]
  · intro kdf expected pw
    rw [verify_password]
    by_cases hpw : pw = []
    · rw [if_pos hpw]
      simp [hpw]
    · rw [if_neg hpw]
      rw [consteq_iff]
      simp [hpw]
  · intro mem spec value mode kdf expected hmode
    rw [service_write_adaptation, if_pos hmode]
  · intro mem spec value mode pw kdf expected hmode hver
    rw [service_write_adaptation, if_pos hmode]
    rw [hver]
    simp
  · intro mem spec value mode pw kdf expected hver
    rw [service_write_adaptation]
    by_cases hmode : pyStripLower mode = "unsafe".toList
    · rw [if_pos hmode, hver]
      simp
    · rw [if_neg hmode]
  · intro mem spec value mode e henf
    rw [write_setting_trace, henf]
  · intro mem spec value mode e henf
    rw [write_field_trace, henf]

/-- C3 witness: concrete gate decisions — safe/safe allowed, safe/risky
rejected, long-coding safe always rejected, and the unsafe-mode password
gate at the service with the identity `kdf` on a concrete store. -/
theorem write_mode_gate_witness :
    (adaptations_enforce_mode "safe".toList "safe".toList = Except.ok ()) ∧
      ¬(adaptations_enforce_mode "safe".toList "risky".toList = Except.ok ()) ∧
      longcoding_enforce_mode "safe".toList "safe".toList =
        Except.error "safe mode is read-only (use --mode advanced or --mode unsafe)" ∧
      verify_password (fun _ => [1, 2]) [1, 2] "pw".toList = true ∧
      verify_password (fun _ => [1, 3]) [1, 2] "pw".toList = false ∧
      service_write_adaptation (fun _ => [0]) ⟨"safe".toList, "bool", [], 0x2001⟩
          "true".toList "unsafe".toList none (fun _ => [1, 2]) [1, 2] =
        ([], Except.error "unsafe password is required") := by
  obtain ⟨h1, _, _, h4, _, _, h7, h8, _⟩ := write_mode_gate
  refine ⟨(h1 "safe".toList).mpr (by decide), ?_, h4 "risky".toList, ?_, ?_, ?_⟩
  · intro hc
    have := (h1 "risky".toList).mp hc
    revert this
    decide
  · exact (h7 (fun _ => [1, 2]) [1, 2] "pw".toList).mpr ⟨by decide, rfl⟩
  · rw [show verify_password (fun _ => [1, 3]) [1, 2] "pw".toList =
        decide ((1 : Nat) = 1 ∧ (3 : Nat) = 2) from by rfl]
    decide
  · exact h8 (fun _ => [0]) ⟨"safe".toList, "bool", [], 0x2001⟩ "true".toList
      "unsafe".toList (fun _ => [1, 2]) [1, 2] (by decide)

/-- C2: backup-before-write.  In every operation trace of
`AdaptationsManager.write_setting` and `LongCodingManager.write_field`, a
`WriteDataByIdentifier` only ever occurs after a write-backup was created,
that backup's `old_hex` is exactly the uppercase hex of the bytes returned by
the DID read performed before it (and its `new_hex` the hex of the written
bytes), and that read happened on the same DID and returned the pre-write
memory contents. -/
theorem backup_before_write :
    (∀ (mem : Nat → List Nat) (spec : AdaptWriteSpec) (value mode : List Char)
        (i d : Nat) (v : List Nat),
      (write_setting_trace mem spec value mode).1.get? i = some (UdsOp.writeDid d v) →
      ∃ j oldRaw, j < i ∧
        (write_setting_trace mem spec value mode).1.get? j =
          some (UdsOp.createBackup (hexUpper oldRaw) (hexUpper v)) ∧
        oldRaw = mem d ∧
        ∃ k, k < j ∧
          (write_setting_trace mem spec value mode).1.get? k =
            some (UdsOp.readDid d oldRaw)) ∧
    (∀ (mem : Nat → List Nat) (spec : LcWriteSpec) (value mode : List Char)
        (i d : Nat) (v : List Nat),
      (write_field_trace mem spec value mode).1.get? i = some (UdsOp.writeDid d v) →
      ∃ j oldRaw, j < i ∧
        (write_field_trace mem spec value mode).1.get? j =
          some (UdsOp.createBackup (hexUpper oldRaw) (hexUpper v)) ∧
        oldRaw = mem d ∧
        ∃ k, k < j ∧
          (write_field_trace mem spec value mode).1.get? k =
            some (UdsOp.readDid d oldRaw)) := by
  constructor
  · intro mem spec value mode i d v hget
    cases henf : adaptations_enforce_mode mode spec.risk with
    | error e =>
      rw [write_setting_trace, henf] at hget
      simp at hget
    | ok u =>
      cases henc : encode_value spec.kind spec.enum value with
      | error e =>
        have htr : (write_setting_trace mem spec value mode).1 =
            [UdsOp.readDid spec.did (mem spec.did)] := by
          rw [write_setting_trace, henf, henc]
        rw [htr] at hget
        match i with
        | 0 => simp at hget
        | n + 1 => simp at hget
      | ok new_raw =>
        have htr : (write_setting_trace mem spec value mode).1 =
            [UdsOp.readDid spec.did (mem spec.did),
             UdsOp.createBackup (hexUpper (mem spec.did)) (hexUpper new_raw),
             UdsOp.writeDid spec.did new_raw,
             UdsOp.readDid spec.did new_raw] := by
          rw [write_setting_trace, henf, henc]
          simp
        rw [htr] at hget
        match i with
        | 0 => simp at hget
        | 1 => simp at hget
        | 2 =>
          simp only [List.get?_cons_succ, List.get?_cons_zero, Option.some.injEq,
            UdsOp.writeDid.injEq] at hget
          obtain ⟨hd, hv⟩ := hget
          subst hd
          subst hv
          refine ⟨1, mem spec.did, by omega, ?_, rfl, 0, by omega, ?_⟩
          · simp [htr]
          · simp [htr]
        | 3 => simp at hget
        | n + 4 => simp at hget
  · intro mem spec value mode i d v hget
    cases henf : longcoding_enforce_mode mode spec.risk with
    | error e =>
      rw [write_field_trace, henf] at hget
      simp at hget
    | ok u =>
      cases hreq : require_length (mem spec.did) spec.codingLength with
      | error e =>
        have htr : (write_field_trace mem spec value mode).1 =
            [UdsOp.readDid spec.did (mem spec.did)] := by
          simp only [write_field_trace, henf, hreq]
        rw [htr] at hget
        match i with
        | 0 => simp at hget
        | n + 1 => simp at hget
      | ok u2 =>
        cases henc : encode_field_value spec.kind spec.enum value with
        | error e =>
          have htr : (write_field_trace mem spec value mode).1 =
              [UdsOp.readDid spec.did (mem spec.did)] := by
            simp only [write_field_trace, henf, hreq, henc]
          rw [htr] at hget
          match i with
          | 0 => simp at hget
          | n + 1 => simp at hget
        | ok vint =>
          cases hset : (if vint < 0 then Except.error "value out of range for bitfield"
              else set_bits (mem spec.did) spec.byte spec.bit spec.length vint.toNat) with
          | error e =>
            have htr : (write_field_trace mem spec value mode).1 =
                [UdsOp.readDid spec.did (mem spec.did)] := by
              simp only [write_field_trace, henf, hreq, henc, hset]
            rw [htr] at hget
            match i with
            | 0 => simp at hget
            | n + 1 => simp at hget
          | ok new_raw =>
            have htr : (write_field_trace mem spec value mode).1 =
                [UdsOp.readDid spec.did (mem spec.did),
                 UdsOp.createBackup (hexUpper (mem spec.did)) (hexUpper new_raw),
                 UdsOp.writeDid spec.did new_raw,
                 UdsOp.readDid spec.did new_raw] := by
              simp only [write_field_trace, henf, hreq, henc, hset]
              cases hreq2 : require_length new_raw spec.codingLength with
              | error e2 => simp [hreq2]
              | ok u3 => simp [hreq2]
            rw [htr] at hget
            match i with
            | 0 => simp at hget
            | 1 => simp at hget
            | 2 =>
              simp only [List.get?_cons_succ, List.get?_cons_zero, Option.some.injEq,
                UdsOp.writeDid.injEq] at hget
              obtain ⟨hd, hv⟩ := hget
              subst hd
              subst hv
              refine ⟨1, mem spec.did, by omega, ?_, rfl, 0, by omega, ?_⟩
              · simp [htr]
              · simp [htr]
            | 3 => simp at hget
            | n + 4 => simp at hget

/-- C2 witness: writing the bool setting `true` (risk `safe`, mode `safe`) at
DID `0x2001` over memory holding `00`: the trace's write at index 2 is
preceded by the backup at index 1 whose `old_hex` is the hex of the read at
index 0. -/
theorem backup_before_write_witness :
    (write_setting_trace (fun _ => [0x00])
        { risk := "safe".toList, kind := "bool", enum := [], did := 0x2001 }
        "true".toList "safe".toList).1.get? 2 =
      some (UdsOp.writeDid 0x2001 [0x01]) ∧
    ∃ j oldRaw, j < 2 ∧
      (write_setting_trace (fun _ => [0x00])
          { risk := "safe".toList, kind := "bool", enum := [], did := 0x2001 }
          "true".toList "safe".toList).1.get? j =
        some (UdsOp.createBackup (hexUpper oldRaw) (hexUpper [0x01])) ∧
      oldRaw = [0x00] ∧
      ∃ k, k < j ∧
        (write_setting_trace (fun _ => [0x00])
            { risk := "safe".toList, kind := "bool", enum := [], did := 0x2001 }
            "true".toList "safe".toList).1.get? k =
          some (UdsOp.readDid 0x2001 oldRaw) :=
  ⟨by decide, backup_before_write.1 (fun _ => [0x00])
    { risk := "safe".toList, kind := "bool", enum := [], did := 0x2001 }
    "true".toList "safe".toList 2 0x2001 [0x01] (by decide)⟩

end Autosvc
